import Mathlib

/-!
Verification development for the dbt-docs runtime lineage / observability
engine: the artifact loader and child-index builder, the DAG traversal
engine (`dagCompute`), the comparison resolver and broad-checks evaluator
(`observability`), the tiered TTL cache (`cache.ts`), and the two HTTP
read endpoints (`/api/dag/[id]`, `/api/errors/[id]`).

JavaScript objects used as string-keyed dictionaries are modelled as
association lists (`List (String × α)`); property read, write and delete
are `lookupA`, `updateA`, `removeA`.  Wall-clock time (`Date.now()`) is an
explicit `Int` parameter (milliseconds).  JS numbers appearing in the
claims are exact (small integers and percentages), so they are modelled
as `Nat`/`Int`/`Rat` with `Option _` where `NaN`/`undefined` can occur.
-/

namespace SDD

/-- Property read on a JS object (`o[k]`): first binding wins. -/
def lookupA {α : Type} : List (String × α) → String → Option α
  | [], _ => none
  | (k, v) :: rest, key => if k = key then some v else lookupA rest key

/-- Property write on a JS object (`o[k] = v`): replaces the existing
binding in place, otherwise appends (JS insertion order). -/
def updateA {α : Type} : List (String × α) → String → α → List (String × α)
  | [], key, v => [(key, v)]
  | (k, w) :: rest, key, v =>
    if k = key then (k, v) :: rest else (k, w) :: updateA rest key v

/-- Property delete (`delete o[k]` / `Map.delete`). -/
def removeA {α : Type} : List (String × α) → String → List (String × α)
  | [], _ => []
  | (k, w) :: rest, key =>
    if k = key then removeA rest key else (k, w) :: removeA rest key

theorem lookupA_updateA_self {α : Type} (l : List (String × α)) (k : String) (v : α) :
    lookupA (updateA l k v) k = some v := by
  induction l with
  | nil => simp [lookupA, updateA]
  | cons p rest ih =>
    by_cases h : p.1 = k <;> simp [lookupA, updateA, h, ih]

theorem lookupA_updateA_other {α : Type} (l : List (String × α)) (k k' : String) (v : α)
    (h : k ≠ k') : lookupA (updateA l k v) k' = lookupA l k' := by
  induction l with
  | nil => simp [lookupA, updateA, h]
  | cons p rest ih =>
    by_cases hp : p.1 = k
    · simp [lookupA, updateA, hp, h, Ne.symm h, ih]
    · simp [lookupA, updateA, hp, ih]

theorem lookupA_removeA_self {α : Type} (l : List (String × α)) (k : String) :
    lookupA (removeA l k) k = none := by
  induction l with
  | nil => simp [lookupA, removeA]
  | cons p rest ih =>
    by_cases h : p.1 = k <;> simp [lookupA, removeA, h, ih]

theorem lookupA_removeA_other {α : Type} (l : List (String × α)) (k k' : String)
    (h : k ≠ k') : lookupA (removeA l k) k' = lookupA l k' := by
  induction l with
  | nil => simp [lookupA, removeA]
  | cons p rest ih =>
    by_cases hp : p.1 = k
    · simp [lookupA, removeA, hp, h, Ne.symm h, ih]
    · simp [lookupA, removeA, hp, ih]

/-! ## Tiered cache (`src/lib/cache.ts`)

`TieredCache` keeps two JS `Map`s: `store : Map<string, CacheEntry>` and
`stats : Map<string, CacheStats>`.  The payload type is opaque to the
cache, so the model is polymorphic in it.  Timestamps are milliseconds;
`ageSeconds > ttlSeconds` is modelled exactly as
`now - timestamp > ttlSeconds * 1000`. -/

inductive Layer where
  | hot | warm | cold
  deriving DecidableEq, Repr

structure CacheEntry (α : Type) where
  data : α
  timestamp : Int
  ttlSeconds : Int
  layer : Layer
  deriving DecidableEq, Repr

structure CacheStats where
  hits : Nat
  misses : Nat
  evictions : Nat
  deriving DecidableEq, Repr

structure Cache (α : Type) where
  store : List (String × CacheEntry α)
  stats : List (String × CacheStats)
  deriving DecidableEq, Repr

def emptyCache {α : Type} : Cache α := ⟨[], []⟩

/-- `DEFAULT_TTL` per layer (seconds): hot 5 min, warm 45 min, cold 24 h. -/
def defaultTTL : Layer → Int
  | .hot => 5 * 60
  | .warm => 45 * 60
  | .cold => 24 * 60 * 60

def zeroStats : CacheStats := ⟨0, 0, 0⟩

/-- `recordHit`: read-or-default the stats record, bump `hits`, write back. -/
def Cache.recordHit {α : Type} (c : Cache α) (key : String) : Cache α :=
  let s := (lookupA c.stats key).getD zeroStats
  { c with stats := updateA c.stats key { s with hits := s.hits + 1 } }

/-- `recordMiss`: read-or-default the stats record, bump `misses`, write back. -/
def Cache.recordMiss {α : Type} (c : Cache α) (key : String) : Cache α :=
  let s := (lookupA c.stats key).getD zeroStats
  { c with stats := updateA c.stats key { s with misses := s.misses + 1 } }

/-- `set(key, data, layer, customTtlSeconds?)`: `customTtlSeconds ?? DEFAULT_TTL[layer]`. -/
def Cache.set {α : Type} (c : Cache α) (key : String) (data : α) (layer : Layer)
    (customTtlSeconds : Option Int) (now : Int) : Cache α :=
  let ttl := customTtlSeconds.getD (defaultTTL layer)
  { c with store := updateA c.store key ⟨data, now, ttl, layer⟩ }

/-- `get(key)`: miss (record it) when absent; when expired, delete the entry
and its statistics, then record a miss; otherwise record a hit. -/
def Cache.get {α : Type} (c : Cache α) (key : String) (now : Int) :
    Option α × Cache α :=
  match lookupA c.store key with
  | none => (none, c.recordMiss key)
  | some entry =>
    if now - entry.timestamp > entry.ttlSeconds * 1000 then
      let c1 : Cache α :=
        { c with store := removeA c.store key, stats := removeA c.stats key }
      (none, c1.recordMiss key)
    else
      (some entry.data, c.recordHit key)

/-- `has(key)`: literally `this.get(key) !== null` (same side effects). -/
def Cache.has {α : Type} (c : Cache α) (key : String) (now : Int) :
    Bool × Cache α :=
  let r := c.get key now
  (r.1.isSome, r.2)

/-- `delete(key)`: drops the stats record, then the entry; returns whether
an entry was present. -/
def Cache.del {α : Type} (c : Cache α) (key : String) : Bool × Cache α :=
  ((lookupA c.store key).isSome,
    { c with store := removeA c.store key, stats := removeA c.stats key })

/-- `clear()`. -/
def Cache.clear {α : Type} (_c : Cache α) : Cache α := ⟨[], []⟩

/-- Body of the `invalidateLayer` loop: if the entry is still present,
delete it, count it, and drop its statistics (the `evictions++` happens on
a record that is deleted in the next line, so its net effect on the maps
is the deletion). -/
def invalidateStep {α : Type} (acc : Nat × Cache α) (p : String × CacheEntry α) :
    Nat × Cache α :=
  if (lookupA acc.2.store p.1).isSome then
    (acc.1 + 1,
      { acc.2 with
        store := removeA acc.2.store p.1
        stats := removeA acc.2.stats p.1 })
  else acc

/-- `invalidateLayer(layer)`: snapshot the entries of the layer, then run
the deletion loop over the snapshot. -/
def Cache.invalidateLayer {α : Type} (c : Cache α) (layer : Layer) :
    Nat × Cache α :=
  (c.store.filter (fun p => p.2.layer = layer)).foldl invalidateStep (0, c)

/-- One observable cache operation, with the wall clock it runs at. -/
inductive CacheOp (α : Type) where
  | set (key : String) (data : α) (layer : Layer) (ttl : Option Int) (now : Int)
  | get (key : String) (now : Int)
  | has (key : String) (now : Int)
  | del (key : String)
  | clear
  | invalidate (layer : Layer)

def applyOp {α : Type} (c : Cache α) : CacheOp α → Cache α
  | .set key data layer ttl now => c.set key data layer ttl now
  | .get key now => (c.get key now).2
  | .has key now => (c.has key now).2
  | .del key => (c.del key).2
  | .clear => c.clear
  | .invalidate layer => (c.invalidateLayer layer).2

/-- State reached from the empty cache by a sequence of operations. -/
def runOps {α : Type} (ops : List (CacheOp α)) : Cache α :=
  ops.foldl applyOp emptyCache

/-- The invariant that does hold of the statistics map: a statistics
record with zero recorded misses always belongs to a live entry. -/
def statsBackedByEntries {α : Type} (c : Cache α) : Prop :=
  ∀ k s, lookupA c.stats k = some s → s.misses = 0 → (lookupA c.store k).isSome

theorem sbe_empty {α : Type} : statsBackedByEntries (emptyCache (α := α)) := by
  intro k s hs _
  simp [emptyCache, lookupA] at hs

theorem sbe_recordMiss {α : Type} (c : Cache α) (key : String)
    (h : statsBackedByEntries c) : statsBackedByEntries (c.recordMiss key) := by
  intro k s hs hm
  simp only [Cache.recordMiss] at hs ⊢
  by_cases hk : key = k
  · subst hk
    rw [lookupA_updateA_self] at hs
    cases hs
    simp at hm
  · rw [lookupA_updateA_other _ _ _ _ hk] at hs
    exact h k s hs hm

theorem sbe_recordHit {α : Type} (c : Cache α) (key : String)
    (hstore : (lookupA c.store key).isSome)
    (h : statsBackedByEntries c) : statsBackedByEntries (c.recordHit key) := by
  intro k s hs hm
  simp only [Cache.recordHit] at hs ⊢
  by_cases hk : key = k
  · subst hk
    exact hstore
  · rw [lookupA_updateA_other _ _ _ _ hk] at hs
    exact h k s hs hm

theorem sbe_set {α : Type} (c : Cache α) (key : String) (data : α) (layer : Layer)
    (ttl : Option Int) (now : Int) (h : statsBackedByEntries c) :
    statsBackedByEntries (c.set key data layer ttl now) := by
  intro k s hs hm
  simp only [Cache.set] at hs ⊢
  by_cases hk : key = k
  · subst hk
    rw [lookupA_updateA_self]
    rfl
  · rw [lookupA_updateA_other _ _ _ _ hk]
    exact h k s hs hm

theorem sbe_get {α : Type} (c : Cache α) (key : String) (now : Int)
    (h : statsBackedByEntries c) : statsBackedByEntries (c.get key now).2 := by
  rw [Cache.get]
  cases hst : lookupA c.store key with
  | none => exact sbe_recordMiss _ _ h
  | some e =>
    by_cases hexp : now - e.timestamp > e.ttlSeconds * 1000
    · simp only [hexp, if_pos]
      apply sbe_recordMiss
      intro k s hs hm
      by_cases hk : key = k
      · subst hk
        rw [lookupA_removeA_self] at hs
        cases hs
      · rw [lookupA_removeA_other _ _ _ hk] at hs
        rw [lookupA_removeA_other _ _ _ hk]
        exact h k s hs hm
    · simp only [hexp, if_neg, not_false_iff]
      exact sbe_recordHit _ _ (by simp [hst]) h

theorem sbe_has {α : Type} (c : Cache α) (key : String) (now : Int)
    (h : statsBackedByEntries c) : statsBackedByEntries (c.has key now).2 := by
  simpa [Cache.has] using sbe_get c key now h

theorem sbe_del {α : Type} (c : Cache α) (key : String)
    (h : statsBackedByEntries c) : statsBackedByEntries (c.del key).2 := by
  intro k s hs hm
  simp only [Cache.del] at hs ⊢
  by_cases hk : key = k
  · subst hk
    rw [lookupA_removeA_self] at hs
    cases hs
  · rw [lookupA_removeA_other _ _ _ hk] at hs
    rw [lookupA_removeA_other _ _ _ hk]
    exact h k s hs hm

theorem sbe_invalidateStep {α : Type} (acc : Nat × Cache α) (p : String × CacheEntry α)
    (h : statsBackedByEntries acc.2) : statsBackedByEntries (invalidateStep acc p).2 := by
  intro k s hs hm
  simp only [invalidateStep] at hs ⊢
  by_cases hc : (lookupA acc.2.store p.1).isSome
  · simp only [hc, if_pos] at hs ⊢
    by_cases hk : p.1 = k
    · subst hk
      rw [lookupA_removeA_self] at hs
      cases hs
    · rw [lookupA_removeA_other _ _ _ hk] at hs
      rw [lookupA_removeA_other _ _ _ hk]
      exact h k s hs hm
  · simp only [hc, if_neg, not_false_iff] at hs ⊢
    exact h k s hs hm

theorem sbe_invalidate_fold {α : Type} (l : List (String × CacheEntry α)) :
    ∀ acc : Nat × Cache α, statsBackedByEntries acc.2 →
      statsBackedByEntries (l.foldl invalidateStep acc).2 := by
  induction l with
  | nil => intro acc h; exact h
  | cons p rest ih =>
    intro acc h
    exact ih _ (sbe_invalidateStep acc p h)

theorem sbe_invalidateLayer {α : Type} (c : Cache α) (layer : Layer)
    (h : statsBackedByEntries c) : statsBackedByEntries (c.invalidateLayer layer).2 := by
  rw [Cache.invalidateLayer]
  exact sbe_invalidate_fold _ _ h

theorem sbe_applyOp {α : Type} (c : Cache α) (op : CacheOp α)
    (h : statsBackedByEntries c) : statsBackedByEntries (applyOp c op) := by
  cases op with
  | set key data layer ttl now => exact sbe_set c key data layer ttl now h
  | get key now => exact sbe_get c key now h
  | has key now => exact sbe_has c key now h
  | del key => exact sbe_del c key h
  | clear => intro k s hs _; simp [Cache.clear, applyOp, lookupA] at hs
  | invalidate layer => exact sbe_invalidateLayer c layer h

theorem sbe_foldl {α : Type} (ops : List (CacheOp α)) :
    ∀ c : Cache α, statsBackedByEntries c →
      statsBackedByEntries (ops.foldl applyOp c) := by
  induction ops with
  | nil => intro c h; exact h
  | cons op rest ih =>
    intro c h
    exact ih _ (sbe_applyOp c op h)

/-- C2 counterexample: one single `get` on an absent key, starting from the
empty cache, creates a statistics record (`recordMiss`) while the entry map
stays empty, so `|statistics map| ≤ |entry map|` already fails. -/
theorem cache_stats_bound_counterexample :
    (runOps [CacheOp.get (α := Nat) "k" 0]).stats.length >
      (runOps [CacheOp.get (α := Nat) "k" 0]).store.length := by
  decide

/-- C2 (amended): the bound `|stats| ≤ |entries|` fails because `get`/`has`
on an absent or expired key leaves a miss record with no entry; what every
state reachable from the empty cache by any sequence of get, set, delete,
TTL expiry, clear, and invalidateLayer operations does satisfy is that
every statistics record with zero recorded misses belongs to a live entry. -/
theorem cache_stats_zero_miss_backed {α : Type} (ops : List (CacheOp α)) :
    statsBackedByEntries (runOps ops) :=
  sbe_foldl ops emptyCache sbe_empty

/-- Witness for `cache_stats_zero_miss_backed` at a concrete operation
sequence and key. -/
theorem cache_stats_zero_miss_backed_witness :
    (lookupA (runOps [CacheOp.set (α := Nat) "a" 5 .warm none 0,
        CacheOp.get "a" 1]).stats "a" = some ⟨1, 0, 0⟩) ∧
      ((lookupA (runOps [CacheOp.set (α := Nat) "a" 5 .warm none 0,
        CacheOp.get "a" 1]).store "a").isSome) :=
  ⟨by decide,
    cache_stats_zero_miss_backed [CacheOp.set (α := Nat) "a" 5 .warm none 0,
      CacheOp.get "a" 1] "a" ⟨1, 0, 0⟩ (by decide) rfl⟩

/-- C10 counterexample: on an expired entry whose prior statistics record
is exactly `{hits 0, misses 1, evictions 0}`, `has` deletes the statistics
record and `recordMiss` recreates an identical one, so the statistics map
is left extensionally unchanged — `has` is not "never side-effect-free on
the statistics map". -/
theorem has_stats_unchanged_counterexample :
    ((Cache.has ⟨[("k", ⟨(7 : Nat), 0, 1, .hot⟩)], [("k", ⟨0, 1, 0⟩)]⟩ "k" 2000).2).stats =
      (⟨[("k", ⟨(7 : Nat), 0, 1, .hot⟩)], [("k", ⟨0, 1, 0⟩)]⟩ : Cache Nat).stats := by
  decide

/-- C10 (amended): `has(key)` returns true exactly when `get(key)` returns a
value and performs the same state transition as `get`: it records a miss
(creating the statistics record if none exists) when the entry is absent,
deletes the entry and its statistics and then records a miss when the entry
is expired, and records a hit when the entry is valid.  The statistics map
is changed by every `has`, except in the single case of an expired entry
whose prior statistics record was exactly `{hits 0, misses 1, evictions 0}`,
where deletion followed by the fresh miss record recreates the map
unchanged. -/
theorem has_matches_get {α : Type} (c : Cache α) (key : String) (now : Int) :
    ((c.has key now).1 = ((c.get key now).1).isSome)
    ∧ ((c.has key now).2 = (c.get key now).2)
    ∧ (lookupA c.store key = none → (c.has key now).2 = c.recordMiss key)
    ∧ (∀ e, lookupA c.store key = some e → now - e.timestamp > e.ttlSeconds * 1000 →
        (c.has key now).2 =
          Cache.recordMiss ⟨removeA c.store key, removeA c.stats key⟩ key)
    ∧ (∀ e, lookupA c.store key = some e → ¬(now - e.timestamp > e.ttlSeconds * 1000) →
        (c.has key now).2 = c.recordHit key)
    ∧ ((c.has key now).2.stats = c.stats →
        ∃ e, lookupA c.store key = some e ∧ now - e.timestamp > e.ttlSeconds * 1000 ∧
          lookupA c.stats key = some ⟨0, 1, 0⟩) := by
  refine ⟨rfl, rfl, ?_, ?_, ?_, ?_⟩
  · intro h
    simp [Cache.has, Cache.get, h]
  · intro e he hexp
    simp [Cache.has, Cache.get, he, hexp]
  · intro e he hexp
    simp [Cache.has, Cache.get, he, hexp]
  · intro hsame
    rcases hst : lookupA c.store key with _ | e
    · exfalso
      rw [Cache.has] at hsame
      rw [Cache.get] at hsame
      rw [hst] at hsame
      simp only [Cache.recordMiss] at hsame
      have hk := congrArg (fun l => lookupA l key) hsame
      simp only [lookupA_updateA_self] at hk
      rcases hgd : lookupA c.stats key with _ | s
      · rw [hgd] at hk
        simp [hgd] at hk
      · rw [hgd] at hk
        simp only [Option.getD_some] at hk
        have := congrArg CacheStats.misses (Option.some.inj hk)
        simp at this
    · by_cases hexp : now - e.timestamp > e.ttlSeconds * 1000
      · refine ⟨e, hst ▸ rfl, hexp, ?_⟩
        rw [Cache.has] at hsame
        rw [Cache.get] at hsame
        rw [hst] at hsame
        simp only [hexp, if_pos] at hsame
        simp only [Cache.recordMiss] at hsame
        have hk := congrArg (fun l => lookupA l key) hsame
        simp only [lookupA_updateA_self, lookupA_removeA_self, Option.getD_none] at hk
        exact hk.symm
      · exfalso
        rw [Cache.has] at hsame
        rw [Cache.get] at hsame
        rw [hst] at hsame
        simp only [hexp, if_neg, not_false_iff] at hsame
        simp only [Cache.recordHit] at hsame
        have hk := congrArg (fun l => lookupA l key) hsame
        simp only [lookupA_updateA_self] at hk
        rcases hgd : lookupA c.stats key with _ | s
        · rw [hgd] at hk
          simp [hgd] at hk
        · rw [hgd] at hk
          simp only [Option.getD_some] at hk
          have := congrArg CacheStats.hits (Option.some.inj hk)
          simp at this

/-- Witness for `has_matches_get`: the absent-key case at a concrete cache. -/
theorem has_matches_get_witness :
    ((emptyCache (α := Nat)).has "k" 0).2 = (emptyCache (α := Nat)).recordMiss "k" :=
  (has_matches_get (emptyCache (α := Nat)) "k" 0).2.2.1 rfl

/-! ## JSON values

The artifacts are loosely-schemad JSON; fields typed `unknown` in the
source (`meta` values, `stats` values, `created_at`) are modelled by a
small JSON value type.  JSON numbers are finite, so they are `Rat`. -/

inductive JsVal where
  | null
  | bool (b : Bool)
  | num (q : Rat)
  | str (s : String)
  | arr (elems : List JsVal)
  | obj (fields : List (String × JsVal))
  deriving Repr

/-! ## Manifest model (`manifestLoader.ts`)

Only the fields the core reads are modelled; each corresponds to a field
accessed in the source (`depends_on.nodes`, `depends_on.macros`,
`columns[name].data_type`, `meta`, `tags`, `config.materialized`,
`config.severity`, `test_metadata`, `file_key_name`, `created_at`). -/

structure TestMetaM where
  tmName : Option String := none
  tmNamespace : Option String := none
  kwargsColumnName : Option String := none

structure NodeM where
  unique_id : String := ""
  name : String := ""
  resource_type : String := ""
  dependsOnNodes : List String := []
  dependsOnMacros : List String := []
  columns : List (String × Option String) := []
  meta : List (String × JsVal) := []
  tags : List String := []
  materialized : Option String := none
  severity : Option String := none
  test_metadata : Option TestMetaM := none
  file_key_name : Option String := none
  created_at : Option JsVal := none
  description : String := ""

structure ManifestMetaM where
  dbt_version : Option String := none
  generated_at : Option String := none
  dbt_schema_version : Option String := none

structure ManifestM where
  metadata : Option ManifestMetaM := none
  nodes : List (String × NodeM) := []
  sources : List (String × NodeM) := []
  macros : List (String × NodeM) := []

/-- JS object spread `{...a, ...b}`: keys of `a` in place (values of `b`
winning on collision), then the keys only in `b`, in order. -/
def mergeSpread {α : Type} (a b : List (String × α)) : List (String × α) :=
  b.foldl (fun acc p => updateA acc p.1 p.2) a

/-- The merged node view `{...nodes, ...sources, ...macros}` (built by
`buildChildIndex` / `getAllNodes` and cached as `manifest._allNodes`). -/
def allNodesOf (m : ManifestM) : List (String × NodeM) :=
  mergeSpread (mergeSpread m.nodes m.sources) m.macros

/-- `[...(node.depends_on?.nodes || []), ...(node.depends_on?.macros || [])]`. -/
def nodeDeps (n : NodeM) : List String :=
  n.dependsOnNodes ++ n.dependsOnMacros

/-- Upstream adjacency: the dependency list of the node, `[]` when the id
has no entry (the source returns right after `visited.add`, so its
dependency walk is empty). -/
def depsAdj (ns : List (String × NodeM)) (nodeId : String) : List String :=
  match lookupA ns nodeId with
  | none => []
  | some n => nodeDeps n

/-- `childIndex[parentId].push(nodeId)`, creating the list if absent. -/
def pushChild (ci : List (String × List String)) (parentId childId : String) :
    List (String × List String) :=
  match lookupA ci parentId with
  | none => ci ++ [(parentId, [childId])]
  | some l => updateA ci parentId (l ++ [childId])

/-- `buildChildIndex`: for each node of the merged view, append it to the
child list of each of its dependencies. -/
def buildChildIndex (allN : List (String × NodeM)) : List (String × List String) :=
  allN.foldl
    (fun ci p => (nodeDeps p.2).foldl (fun ci2 parentId => pushChild ci2 parentId p.1) ci)
    []

/-- Downstream adjacency: `childIndex?.[nodeId] || []`. -/
def childAdj (ci : List (String × List String)) (nodeId : String) : List String :=
  (lookupA ci nodeId).getD []

/-! ## DAG traversal (`dagCompute.ts`) -/

/-- The two mutable structures threaded through a traversal: the depth map
(`parentMap` / `childMap`) and the `visited` set. -/
structure TravSt where
  depthMap : List (String × Nat)
  visited : List String

/-- `if (!map[depId] || map[depId] > depDepth) map[depId] = depDepth;`
(JS `!x` is true for both `undefined` and `0`; recorded depths are ≥ 1,
so `getD 0` renders the read faithfully). -/
def maybeRecord (st : TravSt) (dep : String) (depDepth : Nat) : TravSt :=
  let cur := (lookupA st.depthMap dep).getD 0
  if cur = 0 || cur > depDepth then
    { st with depthMap := updateA st.depthMap dep depDepth }
  else st

/-- The dependency loop: for each `depId` not yet visited, record the
candidate depth and recurse (`go` is the recursive visit at that depth). -/
def traverseList (go : String → Nat → TravSt → TravSt) :
    List String → Nat → TravSt → TravSt
  | [], _, st => st
  | dep :: rest, depDepth, st =>
    let st' :=
      if st.visited.contains dep then st
      else go dep depDepth (maybeRecord st dep depDepth)
    traverseList go rest depDepth st'

/-- Common body of `traverseUpstream` and `traverseDownstream` (the two
source functions are identical except for the adjacency: dependency lists
upstream, the child index downstream).  Guard on the visited set and the
depth bound, mark visited, then walk the adjacency list.  `fuel` exists
only to bound the recursion for Lean: every call site keeps
`fuel + depth = maxDepth + 1`, so `fuel = 0` implies `depth > maxDepth`,
where the source's guard returns as well. -/
def traverseGo (adj : String → List String) (maxDepth : Nat) :
    Nat → String → Nat → TravSt → TravSt
  | 0, _, _, st => st
  | fuel + 1, nodeId, depth, st =>
    if st.visited.contains nodeId || depth > maxDepth then st
    else
      traverseList (fun dep dd st2 => traverseGo adj maxDepth fuel dep dd st2)
        (adj nodeId) (depth + 1) { st with visited := nodeId :: st.visited }

/-- `traverseUpstream(nodeId, allNodes, parentMap, visited, 0, maxDepth)`. -/
def traverseUpstream (allN : List (String × NodeM)) (maxDepth : Nat)
    (rootId : String) : TravSt :=
  traverseGo (depsAdj allN) maxDepth (maxDepth + 1) rootId 0 ⟨[], []⟩

/-- `traverseDownstream(nodeId, allNodes, childMap, visited, 0, maxDepth, childIndex)`. -/
def traverseDownstream (ci : List (String × List String)) (maxDepth : Nat)
    (rootId : String) : TravSt :=
  traverseGo (childAdj ci) maxDepth (maxDepth + 1) rootId 0 ⟨[], []⟩

/-- The parts of the `DAG` return value the claims are about.  `parents` /
`children` stand for the converted node arrays at the id level:
`convertNodeToDAGNode` returns `null` exactly when the id has no entry in
the merged view, so `.filter(Boolean)` keeps the ids present there. -/
structure DAGOut where
  parentMap : List (String × Nat)
  childMap : List (String × Nat)
  parents : List String
  children : List String
  upstreamDepth : Nat
  downstreamDepth : Nat

/-- `computeDAG(manifest, nodeId, maxDepth, catalog?)`; throws
`Node not found` when the id is absent from the merged view.
`Math.max(...values, 0)` is the fold of `max` over the depth values. -/
def computeDAG (m : ManifestM) (nodeId : String) (maxDepth : Nat) :
    Except String DAGOut :=
  let allN := allNodesOf m
  match lookupA allN nodeId with
  | none => .error ("Node not found: " ++ nodeId)
  | some _ =>
    let childIndex := buildChildIndex allN
    let parentMap := (traverseUpstream allN maxDepth nodeId).depthMap
    let childMap := (traverseDownstream childIndex maxDepth nodeId).depthMap
    .ok
      { parentMap := parentMap
        childMap := childMap
        parents := (parentMap.map Prod.fst).filter fun id => (lookupA allN id).isSome
        children := (childMap.map Prod.fst).filter fun id => (lookupA allN id).isSome
        upstreamDepth := (parentMap.map Prod.snd).foldl max 0
        downstreamDepth := (childMap.map Prod.snd).foldl max 0 }

/-! ## Directed paths in the adjacency graph -/

/-- `reachN adj n a b`: there is a directed path of length `n` from `a` to
`b` following `adj` edges. -/
def reachN (adj : String → List String) : Nat → String → String → Prop
  | 0, a, b => a = b
  | n + 1, a, b => ∃ c ∈ adj a, reachN adj n c b

instance reachNDec (adj : String → List String) :
    (n : Nat) → (a b : String) → Decidable (reachN adj n a b)
  | 0, a, b => decidable_of_iff (a = b) (by simp [reachN])
  | n + 1, a, b =>
    have : ∀ c, Decidable (reachN adj n c b) := fun c => reachNDec adj n c b
    decidable_of_iff (∃ c ∈ adj a, reachN adj n c b) (by simp [reachN])

/-- Extending a path by one edge at its end. -/
theorem reachN_snoc {adj : String → List String} {n : Nat} {a b c : String}
    (h : reachN adj n a b) (hc : c ∈ adj b) : reachN adj (n + 1) a c := by
  induction n generalizing a with
  | zero =>
    cases h
    exact ⟨c, hc, rfl⟩
  | succ n ih =>
    obtain ⟨d, hd, hr⟩ := h
    exact ⟨d, hd, ih hr⟩

/-- `s` is the length of a shortest directed path from `a` to `b`. -/
def isShortestDist (adj : String → List String) (a b : String) (s : Nat) : Prop :=
  reachN adj s a b ∧ ∀ k < s, ¬ reachN adj k a b

/-- Invariant of a traversal: every recorded depth is the length of an
actual directed path from the root. -/
def mapSound (adj : String → List String) (root : String) (st : TravSt) : Prop :=
  ∀ a d, lookupA st.depthMap a = some d → reachN adj d root a

theorem mapSound_maybeRecord {adj : String → List String} {root : String}
    {st : TravSt} {dep : String} {depDepth : Nat}
    (h : mapSound adj root st) (hr : reachN adj depDepth root dep) :
    mapSound adj root (maybeRecord st dep depDepth) := by
  intro a d hl
  simp only [maybeRecord] at hl
  split at hl
  · by_cases hk : dep = a
    · subst hk
      rw [lookupA_updateA_self] at hl
      cases hl
      exact hr
    · rw [lookupA_updateA_other _ _ _ _ hk] at hl
      exact h a d hl
  · exact h a d hl

theorem traverseList_sound {adj : String → List String} {root : String}
    (go : String → Nat → TravSt → TravSt)
    (hgo : ∀ nodeId depth st, mapSound adj root st → reachN adj depth root nodeId →
      mapSound adj root (go nodeId depth st)) :
    ∀ (deps : List String) (depDepth : Nat) (st : TravSt),
      mapSound adj root st →
      (∀ dep ∈ deps, reachN adj depDepth root dep) →
      mapSound adj root (traverseList go deps depDepth st) := by
  intro deps
  induction deps with
  | nil =>
    intro depDepth st h _
    simpa [traverseList] using h
  | cons dep rest ih =>
    intro depDepth st h hreach
    rw [traverseList]
    apply ih depDepth _ ?_ (fun d hd => hreach d (List.mem_cons_of_mem _ hd))
    split
    · exact h
    · exact hgo dep depDepth _
        (mapSound_maybeRecord h (hreach dep (List.mem_cons_self _ _)))
        (hreach dep (List.mem_cons_self _ _))

theorem traverseGo_sound {adj : String → List String} {maxDepth : Nat}
    {root : String} :
    ∀ (fuel : Nat) (nodeId : String) (depth : Nat) (st : TravSt),
      mapSound adj root st → reachN adj depth root nodeId →
      mapSound adj root (traverseGo adj maxDepth fuel nodeId depth st) := by
  intro fuel
  induction fuel with
  | zero =>
    intro nodeId depth st h _
    simpa [traverseGo] using h
  | succ fuel ih =>
    intro nodeId depth st h hr
    rw [traverseGo]
    split
    · exact h
    · exact traverseList_sound _ (fun n d s hs hn => ih n d s hs hn)
        (adj nodeId) (depth + 1) _ h
        (fun dep hdep => reachN_snoc hr hdep)

/-- The concrete manifest for the C1 counterexample: `R` depends on
`[A, B]` and `A` depends on `[B]`, so the DFS discovers `B` at depth 2
through `A` before the direct edge `R → B` is considered, and the
visited-set guard prevents the re-relaxation. -/
def diamondManifest : ManifestM :=
  { nodes := [("R", { dependsOnNodes := ["A", "B"] }),
              ("A", { dependsOnNodes := ["B"] }),
              ("B", {})] }

/-- C1 counterexample: in `diamondManifest`, `computeDAG` records
`parentMap["B"] = 2` although the shortest directed dependency path from
the root `R` to `B` has length 1 — the recorded depth is not the shortest
distance. -/
theorem dag_shortest_path_counterexample :
    (computeDAG diamondManifest "R" 10).map (fun out => lookupA out.parentMap "B") =
      .ok (some 2)
    ∧ isShortestDist (depsAdj (allNodesOf diamondManifest)) "R" "B" 1 := by
  constructor
  · rfl
  · constructor
    · decide
    · decide

/-- C1 (amended): every depth recorded by `computeDAG` is the length of
some directed path from the root (dependency edges for `parentMap`,
child-index edges for `childMap`), and is therefore an upper bound on —
but not necessarily equal to — the shortest-path distance. -/
theorem computeDAG_depths_are_path_lengths (m : ManifestM) (rootId : String)
    (maxDepth : Nat) (out : DAGOut)
    (hok : computeDAG m rootId maxDepth = .ok out) :
    (∀ a d, lookupA out.parentMap a = some d →
      reachN (depsAdj (allNodesOf m)) d rootId a ∧
        ∀ s, isShortestDist (depsAdj (allNodesOf m)) rootId a s → s ≤ d)
    ∧ (∀ a d, lookupA out.childMap a = some d →
      reachN (childAdj (buildChildIndex (allNodesOf m))) d rootId a ∧
        ∀ s, isShortestDist (childAdj (buildChildIndex (allNodesOf m))) rootId a s → s ≤ d) := by
  have hout :
      out.parentMap = (traverseUpstream (allNodesOf m) maxDepth rootId).depthMap ∧
      out.childMap = (traverseDownstream (buildChildIndex (allNodesOf m)) maxDepth rootId).depthMap := by
    rw [computeDAG] at hok
    rcases hl : lookupA (allNodesOf m) rootId with _ | n
    · rw [hl] at hok
      cases hok
    · rw [hl] at hok
      cases hok
      exact ⟨rfl, rfl⟩
  have base : ∀ (adj : String → List String),
      mapSound adj rootId
        (traverseGo adj maxDepth (maxDepth + 1) rootId 0 ⟨[], []⟩) := by
    intro adj
    apply traverseGo_sound
    · intro a d hl
      simp [lookupA] at hl
    · rfl
  constructor
  · intro a d hl
    rw [hout.1] at hl
    have hreach := base (depsAdj (allNodesOf m)) a d hl
    refine ⟨hreach, fun s hs => ?_⟩
    by_contra hlt
    exact hs.2 d (Nat.lt_of_not_le hlt) hreach
  · intro a d hl
    rw [hout.2] at hl
    have hreach := base (childAdj (buildChildIndex (allNodesOf m))) a d hl
    refine ⟨hreach, fun s hs => ?_⟩
    by_contra hlt
    exact hs.2 d (Nat.lt_of_not_le hlt) hreach

/-- Witness for `computeDAG_depths_are_path_lengths` at `diamondManifest`:
the entry `A ↦ 1` really is a path of length 1. -/
theorem computeDAG_depths_witness :
    reachN (depsAdj (allNodesOf diamondManifest)) 1 "R" "A" :=
  ((computeDAG_depths_are_path_lengths diamondManifest "R" 10
    ((computeDAG diamondManifest "R" 10).toOption.getD
      ⟨[("A", 1), ("B", 2)], [], ["A", "B"], [], 2, 0⟩) rfl).1 "A" 1 rfl).1

theorem lookupA_mem {α : Type} {l : List (String × α)} {k : String} {v : α}
    (h : lookupA l k = some v) : (k, v) ∈ l := by
  induction l with
  | nil => cases h
  | cons p rest ih =>
    rw [lookupA] at h
    split at h
    · cases h
      rename_i heq
      subst heq
      exact List.mem_cons_self _ _
    · exact List.mem_cons_of_mem _ (ih h)

theorem mem_updateA {α : Type} {l : List (String × α)} {k : String} {v : α} {p : String × α}
    (h : p ∈ updateA l k v) : p ∈ l ∨ p = (k, v) := by
  induction l with
  | nil =>
    simp [updateA] at h
    right
    simp [h]
  | cons q rest ih =>
    rw [updateA] at h
    split at h
    · rcases List.mem_cons.mp h with h1 | h1
      · right
        rename_i heq
        simp [h1, heq]
      · left
        exact List.mem_cons_of_mem _ h1
    · rcases List.mem_cons.mp h with h1 | h1
      · left
        simp [h1]
      · rcases ih h1 with h2 | h2
        · left
          exact List.mem_cons_of_mem _ h2
        · right
          exact h2

theorem lookupA_isSome_iff {α : Type} (l : List (String × α)) (k : String) :
    (lookupA l k).isSome ↔ k ∈ l.map Prod.fst := by
  induction l with
  | nil => simp [lookupA]
  | cons p rest ih =>
    by_cases h : p.1 = k
    · simp [lookupA, h]
    · simp [lookupA, h, ih, Ne.symm h]

theorem eq_nil_of_lookupA_none {α : Type} {l : List (String × α)}
    (h : ∀ a, lookupA l a = none) : l = [] := by
  cases l with
  | nil => rfl
  | cons p rest =>
    have := h p.1
    simp [lookupA] at this

theorem foldl_max_const (xs : List Nat) (h : ∀ x ∈ xs, x = 1) :
    xs.foldl max 1 = 1 := by
  induction xs with
  | nil => rfl
  | cons x rest ih =>
    have hx := h x (List.mem_cons_self _ _)
    subst hx
    simpa using ih (fun y hy => h y (List.mem_cons_of_mem _ hy))

theorem foldl_max_ones (l : List (String × Nat)) (h : ∀ p ∈ l, p.2 = 1) :
    (l.map Prod.snd).foldl max 0 = if l = [] then 0 else 1 := by
  cases l with
  | nil => rfl
  | cons p rest =>
    have hp := h p (List.mem_cons_self _ _)
    simp only [List.map_cons, List.foldl_cons, hp]
    have : max 0 1 = 1 := rfl
    rw [this, if_neg (List.cons_ne_nil p rest)]
    exact foldl_max_const _ (fun x hx => by
      obtain ⟨q, hq, hqx⟩ := List.mem_map.mp hx
      rw [← hqx]
      exact h q (List.mem_cons_of_mem _ hq))

/-- At `maxDepth = 0` the recursive visits run out of depth immediately,
so the dependency loop degenerates to recording each unvisited neighbour
at depth 1. -/
theorem traverseList_zero_spec (go : String → Nat → TravSt → TravSt)
    (hgo : ∀ n d s, go n d s = s) (root : String) :
    ∀ (deps : List String) (st : TravSt),
      st.visited = [root] →
      (∀ p ∈ st.depthMap, (p : String × Nat).2 = 1) →
      (∀ a, lookupA (traverseList go deps 1 st).depthMap a =
        if a ∈ deps ∧ a ≠ root then some 1 else lookupA st.depthMap a)
      ∧ ∀ p ∈ (traverseList go deps 1 st).depthMap, (p : String × Nat).2 = 1 := by
  intro deps
  induction deps with
  | nil =>
    intro st _ hvals
    refine ⟨fun a => ?_, hvals⟩
    rw [traverseList]
    simp
  | cons dep rest ih =>
    intro st hvis hvals
    rw [traverseList]
    by_cases hdep : dep = root
    · have hst' :
          (if st.visited.contains dep then st
            else go dep 1 (maybeRecord st dep 1)) = st := by
        rw [hvis, hdep]
        simp [List.contains]
      rw [hst']
      obtain ⟨hlook, hv⟩ := ih st hvis hvals
      refine ⟨fun a => ?_, hv⟩
      rw [hlook a]
      by_cases hmem : a ∈ rest ∧ a ≠ root
      · simp [hmem, hmem.1, hmem.2]
      · have : ¬(a ∈ dep :: rest ∧ a ≠ root) := by
          intro ⟨hin, hne⟩
          rcases List.mem_cons.mp hin with h1 | h1
          · exact hne (h1.trans hdep)
          · exact hmem ⟨h1, hne⟩
        simp only [hmem, if_neg, not_false_iff, this]
    · have hst' :
          (if st.visited.contains dep then st
            else go dep 1 (maybeRecord st dep 1)) = maybeRecord st dep 1 := by
        rw [hvis]
        simp [List.contains, hdep, hgo]
      rw [hst']
      -- the record step: absent ↦ depth 1, present (value 1) ↦ unchanged
      have hrec : ∀ b, lookupA (maybeRecord st dep 1).depthMap b =
          if b = dep then some 1 else lookupA st.depthMap b := by
        intro b
        rw [maybeRecord]
        rcases hcur : lookupA st.depthMap dep with _ | d
        · simp only [hcur, Option.getD_none]
          norm_num
          by_cases hb : dep = b
          · subst hb
            simp [lookupA_updateA_self]
          · rw [lookupA_updateA_other _ _ _ _ hb]
            simp [Ne.symm hb]
        · have hd1 : d = 1 := hvals (dep, d) (lookupA_mem hcur)
          subst hd1
          simp only [hcur, Option.getD_some]
          norm_num
          by_cases hb : b = dep
          · subst hb
            simp [hcur]
          · simp [hb]
      have hvals' : ∀ p ∈ (maybeRecord st dep 1).depthMap, (p : String × Nat).2 = 1 := by
        intro p hp
        rw [maybeRecord] at hp
        split at hp
        · rcases mem_updateA hp with h1 | h1
          · exact hvals p h1
          · rw [h1]
        · exact hvals p hp
      have hvis' : (maybeRecord st dep 1).visited = [root] := by
        rw [maybeRecord]
        split <;> exact hvis
      obtain ⟨hlook, hv⟩ := ih (maybeRecord st dep 1) hvis' hvals'
      refine ⟨fun a => ?_, hv⟩
      rw [hlook a, hrec a]
      by_cases hmem : a ∈ rest ∧ a ≠ root
      · simp [hmem, List.mem_cons_of_mem _ hmem.1, hmem.1, hmem.2]
      · by_cases ha : a = dep
        · subst ha
          simp [hmem, hdep, List.mem_cons_self]
        · have : ¬(a ∈ dep :: rest ∧ a ≠ root) := by
            intro ⟨hin, hne⟩
            rcases List.mem_cons.mp hin with h1 | h1
            · exact ha h1
            · exact hmem ⟨h1, hne⟩
          simp only [hmem, if_neg, not_false_iff, this, ha]

/-- One unfolding of `traverseGo` at `maxDepth = 0` with its full fuel. -/
theorem traverseGo_depth_zero (adj : String → List String) (rootId : String) :
    (∀ a, lookupA (traverseGo adj 0 1 rootId 0 ⟨[], []⟩).depthMap a =
      if a ∈ adj rootId ∧ a ≠ rootId then some 1 else none)
    ∧ ∀ p ∈ (traverseGo adj 0 1 rootId 0 ⟨[], []⟩).depthMap, (p : String × Nat).2 = 1 := by
  have hstep : traverseGo adj 0 1 rootId 0 ⟨[], []⟩ =
      traverseList (fun dep dd st2 => traverseGo adj 0 0 dep dd st2)
        (adj rootId) 1 ⟨[], [rootId]⟩ := rfl
  have hspec := traverseList_zero_spec
    (fun dep dd st2 => traverseGo adj 0 0 dep dd st2)
    (fun _ _ _ => rfl) rootId (adj rootId)
    ⟨[], [rootId]⟩ rfl (by intro p hp; cases hp)
  refine ⟨fun a => ?_, ?_⟩
  · rw [hstep]
    have h := hspec.1 a
    simpa [lookupA] using h
  · rw [hstep]
    exact hspec.2

/-- The concrete manifest for the C7 counterexample: the root has one
direct dependency. -/
def pairManifest : ManifestM :=
  { nodes := [("R", { dependsOnNodes := ["P"] }), ("P", {})] }

/-- C7 counterexample: with `max_depth = 0` the guard rejects the
recursive call only after the direct dependency has been recorded, so
`computeDAG pairManifest "R" 0` returns a non-empty parents list
(`["P"]`, at depth 1) and depth block upstream 1 — not empty lists and
`{0, 0}`. -/
theorem dag_depth_zero_counterexample :
    (computeDAG pairManifest "R" 0).map
        (fun out => (out.parents, lookupA out.parentMap "P", out.upstreamDepth, out.downstreamDepth)) =
      .ok (["P"], some 1, 1, 0) := by
  rfl

/-- C7 (amended): with `max_depth = 0`, `computeDAG` records exactly the
root's direct dependencies (other than the root itself) at depth 1 in
`parentMap` and the root's direct child-index entries at depth 1 in
`childMap`; `parents`/`children` list those of them present in the merged
view, and each side of the depth block is 1 when at least one such
neighbour exists and 0 otherwise. -/
theorem computeDAG_depth_zero (m : ManifestM) (rootId : String) (out : DAGOut)
    (hok : computeDAG m rootId 0 = .ok out) :
    (∀ a, lookupA out.parentMap a =
      if a ∈ depsAdj (allNodesOf m) rootId ∧ a ≠ rootId then some 1 else none)
    ∧ (∀ a, a ∈ out.parents ↔
        (a ∈ depsAdj (allNodesOf m) rootId ∧ a ≠ rootId ∧ (lookupA (allNodesOf m) a).isSome))
    ∧ (out.upstreamDepth =
        if (depsAdj (allNodesOf m) rootId).any (fun a => decide (a ≠ rootId)) then 1 else 0)
    ∧ (∀ a, lookupA out.childMap a =
      if a ∈ childAdj (buildChildIndex (allNodesOf m)) rootId ∧ a ≠ rootId then some 1 else none)
    ∧ (∀ a, a ∈ out.children ↔
        (a ∈ childAdj (buildChildIndex (allNodesOf m)) rootId ∧ a ≠ rootId ∧
          (lookupA (allNodesOf m) a).isSome))
    ∧ (out.downstreamDepth =
        if (childAdj (buildChildIndex (allNodesOf m)) rootId).any (fun a => decide (a ≠ rootId)) then 1 else 0) := by
  have hout :
      out.parentMap = (traverseUpstream (allNodesOf m) 0 rootId).depthMap ∧
      out.childMap = (traverseDownstream (buildChildIndex (allNodesOf m)) 0 rootId).depthMap ∧
      out.parents = (out.parentMap.map Prod.fst).filter
        (fun id => (lookupA (allNodesOf m) id).isSome) ∧
      out.children = (out.childMap.map Prod.fst).filter
        (fun id => (lookupA (allNodesOf m) id).isSome) ∧
      out.upstreamDepth = (out.parentMap.map Prod.snd).foldl max 0 ∧
      out.downstreamDepth = (out.childMap.map Prod.snd).foldl max 0 := by
    rw [computeDAG] at hok
    rcases hl : lookupA (allNodesOf m) rootId with _ | n
    · rw [hl] at hok
      cases hok
    · rw [hl] at hok
      cases hok
      exact ⟨rfl, rfl, rfl, rfl, rfl, rfl⟩
  obtain ⟨hpm, hcm, hpar, hchi, hud, hdd⟩ := hout
  have hup := traverseGo_depth_zero (depsAdj (allNodesOf m)) rootId
  have hdn := traverseGo_depth_zero (childAdj (buildChildIndex (allNodesOf m))) rootId
  have hpm' : out.parentMap = (traverseGo (depsAdj (allNodesOf m)) 0 1 rootId 0 ⟨[], []⟩).depthMap := hpm
  have hcm' : out.childMap = (traverseGo (childAdj (buildChildIndex (allNodesOf m))) 0 1 rootId 0 ⟨[], []⟩).depthMap := hcm
  have sideLemma : ∀ (adj : String → List String)
      (dm : List (String × Nat)),
      dm = (traverseGo adj 0 1 rootId 0 ⟨[], []⟩).depthMap →
      (∀ a, lookupA dm a = if a ∈ adj rootId ∧ a ≠ rootId then some 1 else none)
      ∧ (∀ a, a ∈ (dm.map Prod.fst).filter (fun id => (lookupA (allNodesOf m) id).isSome) ↔
          (a ∈ adj rootId ∧ a ≠ rootId ∧ (lookupA (allNodesOf m) a).isSome))
      ∧ ((dm.map Prod.snd).foldl max 0 =
          if (adj rootId).any (fun a => decide (a ≠ rootId)) then 1 else 0) := by
    intro adj dm hdm
    have hspec := traverseGo_depth_zero adj rootId
    have hlook : ∀ a, lookupA dm a =
        if a ∈ adj rootId ∧ a ≠ rootId then some 1 else none := by
      intro a
      rw [hdm]
      exact hspec.1 a
    refine ⟨hlook, ?_, ?_⟩
    · intro a
      rw [List.mem_filter]
      constructor
      · rintro ⟨hmem, hsome⟩
        have : (lookupA dm a).isSome := (lookupA_isSome_iff dm a).mpr hmem
        rw [hlook a] at this
        by_cases hcond : a ∈ adj rootId ∧ a ≠ rootId
        · exact ⟨hcond.1, hcond.2, by simpa using hsome⟩
        · rw [if_neg hcond] at this
          cases this
      · rintro ⟨h1, h2, h3⟩
        refine ⟨?_, by simpa using h3⟩
        apply (lookupA_isSome_iff dm a).mp
        rw [hlook a, if_pos ⟨h1, h2⟩]
        rfl
    · have hvals : ∀ p ∈ dm, (p : String × Nat).2 = 1 := by
        rw [hdm]
        exact hspec.2
      rw [foldl_max_ones dm hvals]
      by_cases hany : (adj rootId).any (fun a => decide (a ≠ rootId))
      · rw [if_pos hany]
        obtain ⟨a, hmem, hne⟩ := List.any_eq_true.mp hany
        have hne' : a ≠ rootId := of_decide_eq_true hne
        have : lookupA dm a = some 1 := by
          rw [hlook a, if_pos ⟨hmem, hne'⟩]
        have hnonnil : dm ≠ [] := by
          intro hnil
          rw [hnil] at this
          cases this
        rw [if_neg hnonnil]
      · rw [if_neg hany]
        have hnone : ∀ a, lookupA dm a = none := by
          intro a
          rw [hlook a]
          by_cases hcond : a ∈ adj rootId ∧ a ≠ rootId
          · exfalso
            apply hany
            exact List.any_eq_true.mpr ⟨a, hcond.1, decide_eq_true hcond.2⟩
          · rw [if_neg hcond]
        rw [eq_nil_of_lookupA_none hnone]
        rfl
  obtain ⟨p1, p2, p3⟩ := sideLemma (depsAdj (allNodesOf m)) out.parentMap hpm'
  obtain ⟨c1, c2, c3⟩ := sideLemma (childAdj (buildChildIndex (allNodesOf m))) out.childMap hcm'
  refine ⟨p1, ?_, ?_, c1, ?_, ?_⟩
  · intro a
    rw [hpar]
    exact p2 a
  · rw [hud]
    exact p3
  · intro a
    rw [hchi]
    exact c2 a
  · rw [hdd]
    exact c3

/-- Witness for `computeDAG_depth_zero` at `pairManifest`. -/
theorem computeDAG_depth_zero_witness :
    lookupA ((computeDAG pairManifest "R" 0).toOption.getD
      ⟨[], [], [], [], 0, 0⟩).parentMap "P" = some 1 := by
  have h := computeDAG_depth_zero pairManifest "R"
    ((computeDAG pairManifest "R" 0).toOption.getD ⟨[], [], [], [], 0, 0⟩) rfl
  rw [h.1 "P"]
  rfl

/-! ## `/api/dag/[id]` max-depth parsing (route.ts lines 42-45) -/

/-- JS `parseInt(s, 10)`: skip leading whitespace, optional sign, then the
longest digit prefix; `NaN` (modelled `none`) when no digit follows. -/
def parseIntDec (s : String) : Option Int :=
  let cs := s.data.dropWhile Char.isWhitespace
  let signAndRest : Int × List Char :=
    match cs with
    | '-' :: rest => (-1, rest)
    | '+' :: rest => (1, rest)
    | _ => (1, cs)
  let ds := signAndRest.2.takeWhile Char.isDigit
  if ds.isEmpty then none
  else some (signAndRest.1 * ((ds.foldl (fun acc c => acc * 10 + (c.toNat - 48)) 0 : Nat) : Int))

/-- `searchParams.get('maxDepth') || '50'`: the absent (`null`) and the
empty (falsy) parameter both fall back to the string `'50'`. -/
def maxDepthRaw (param : Option String) : String :=
  match param with
  | none => "50"
  | some s => if s = "" then "50" else s

/-- `Math.min(parseInt(searchParams.get('maxDepth') || '50', 10), 100)`;
`Math.min` propagates `NaN` (`none`).  There is no lower bound. -/
def dagEffectiveMaxDepth (param : Option String) : Option Int :=
  (parseIntDec (maxDepthRaw param)).map (fun v => min v 100)

/-- C6 counterexample: `maxDepth=-5` yields an effective max depth of
`-5`, below 0 — the value is not clamped into `[0, 100]`. -/
theorem dag_max_depth_counterexample :
    dagEffectiveMaxDepth (some "-5") = some (-5) ∧ (-5 : Int) < 0 := by
  constructor
  · rfl
  · decide

/-- C6 (amended): the effective max depth is `min(parsed, 100)` — never
above 100 and defaulting to 50 — but negative parses pass through
unclamped (and a non-numeric parameter gives `NaN`, disabling the bound). -/
theorem dag_max_depth_upper_clamp (param : Option String) :
    (∀ v, dagEffectiveMaxDepth param = some v → v ≤ 100)
    ∧ (∀ v, parseIntDec (maxDepthRaw param) = some v →
        dagEffectiveMaxDepth param = some (min v 100))
    ∧ dagEffectiveMaxDepth none = some 50 := by
  refine ⟨?_, ?_, rfl⟩
  · intro v hv
    rw [dagEffectiveMaxDepth] at hv
    rcases hp : parseIntDec (maxDepthRaw param) with _ | w
    · rw [hp] at hv
      cases hv
    · rw [hp] at hv
      cases hv
      exact min_le_right _ _
  · intro v hv
    rw [dagEffectiveMaxDepth, hv]
    rfl

/-- Witness for `dag_max_depth_upper_clamp` at a concrete parameter. -/
theorem dag_max_depth_upper_clamp_witness :
    (200 : Int) ≤ 100 ∨ dagEffectiveMaxDepth (some "200") = some 100 :=
  Or.inr ((dag_max_depth_upper_clamp (some "200")).2.1 200 rfl)

/-! ## Node-existence checks of the two endpoints -/

theorem lookupA_eq_none_iff {α : Type} (l : List (String × α)) (k : String) :
    lookupA l k = none ↔ ∀ p ∈ l, p.1 ≠ k := by
  induction l with
  | nil => simp [lookupA]
  | cons p rest ih =>
    by_cases h : p.1 = k
    · simp [lookupA, h]
    · simp [lookupA, h, ih]

theorem lookupA_updateA_eq_none_iff {α : Type} (l : List (String × α)) (k0 k : String) (v : α) :
    lookupA (updateA l k0 v) k = none ↔ (k0 ≠ k ∧ lookupA l k = none) := by
  by_cases h : k0 = k
  · subst h
    simp [lookupA_updateA_self]
  · rw [lookupA_updateA_other _ _ _ _ h]
    simp [h]

theorem lookupA_mergeSpread_none {α : Type} (b : List (String × α)) :
    ∀ (a : List (String × α)) (k : String),
      lookupA (mergeSpread a b) k = none ↔
        (lookupA a k = none ∧ lookupA b k = none) := by
  induction b with
  | nil => intro a k; simp [mergeSpread, lookupA]
  | cons p rest ih =>
    intro a k
    have hstep : mergeSpread a (p :: rest) = mergeSpread (updateA a p.1 p.2) rest := rfl
    rw [hstep, ih (updateA a p.1 p.2) k, lookupA_updateA_eq_none_iff]
    constructor
    · rintro ⟨⟨h1, h2⟩, h3⟩
      refine ⟨h2, ?_⟩
      rw [lookupA]
      simp [h1, h3]
    · rintro ⟨h1, h2⟩
      rw [lookupA] at h2
      by_cases hp : p.1 = k
      · simp [hp] at h2
      · simp [hp] at h2
        exact ⟨⟨hp, h1⟩, h2⟩

/-- `/api/dag/[id]` node-existence check (route.ts lines 129-145): the
union is the spread `{...nodes, ...sources, ...macros}`; a missed lookup
yields 404, otherwise the handler proceeds to the success response (the
modelled computation is total). -/
def dagRouteStatus (m : ManifestM) (nodeId : String) : Nat :=
  if (lookupA (mergeSpread (mergeSpread m.nodes m.sources) m.macros) nodeId).isNone
  then 404 else 200

/-- `/api/errors/[id]` node-existence check (route.ts lines 156-169): the
union is the spread `{...nodes, ...sources}` — macros are not included. -/
def errorsRouteStatus (m : ManifestM) (nodeId : String) : Nat :=
  if (lookupA (mergeSpread m.nodes m.sources) nodeId).isNone then 404 else 200

/-- A manifest whose only entry is a macro. -/
def macroOnlyManifest : ManifestM := { macros := [("macro.p.m", {})] }

/-- C8 counterexample: an id present only in `macros` is found by the dag
route but 404s on the errors route, although it belongs to the union of
nodes, sources, and macros. -/
theorem errors_union_counterexample :
    errorsRouteStatus macroOnlyManifest "macro.p.m" = 404
    ∧ dagRouteStatus macroOnlyManifest "macro.p.m" = 200
    ∧ (lookupA (mergeSpread (mergeSpread macroOnlyManifest.nodes macroOnlyManifest.sources)
        macroOnlyManifest.macros) "macro.p.m").isSome = true := by
  refine ⟨rfl, rfl, rfl⟩

/-- C8 (amended): on a cache miss with a loaded manifest, the dag route
404s exactly when the id is absent from nodes, sources, and macros, while
the errors route 404s exactly when the id is absent from nodes and
sources — its union omits macros. -/
theorem routes_node_not_found (m : ManifestM) (nodeId : String) :
    (dagRouteStatus m nodeId = 404 ↔
      (lookupA m.nodes nodeId = none ∧ lookupA m.sources nodeId = none ∧
        lookupA m.macros nodeId = none))
    ∧ (errorsRouteStatus m nodeId = 404 ↔
      (lookupA m.nodes nodeId = none ∧ lookupA m.sources nodeId = none)) := by
  have keyDag : lookupA (mergeSpread (mergeSpread m.nodes m.sources) m.macros) nodeId = none ↔
      (lookupA m.nodes nodeId = none ∧ lookupA m.sources nodeId = none ∧
        lookupA m.macros nodeId = none) := by
    rw [lookupA_mergeSpread_none, lookupA_mergeSpread_none]
    tauto
  have keyErr : lookupA (mergeSpread m.nodes m.sources) nodeId = none ↔
      (lookupA m.nodes nodeId = none ∧ lookupA m.sources nodeId = none) :=
    lookupA_mergeSpread_none _ _ _
  constructor
  · rw [dagRouteStatus]
    rcases h : lookupA (mergeSpread (mergeSpread m.nodes m.sources) m.macros) nodeId with _ | v
    · rw [show ((if (none : Option NodeM).isNone = true then 404 else 200 : Nat)) = 404 from rfl]
      exact ⟨fun _ => keyDag.mp h, fun _ => rfl⟩
    · rw [show ((if (some v).isNone = true then 404 else 200 : Nat)) = 200 from rfl]
      constructor
      · intro hc
        exact absurd hc (by decide)
      · intro hr
        have h0 := keyDag.mpr hr
        rw [h] at h0
        cases h0
  · rw [errorsRouteStatus]
    rcases h : lookupA (mergeSpread m.nodes m.sources) nodeId with _ | v
    · rw [show ((if (none : Option NodeM).isNone = true then 404 else 200 : Nat)) = 404 from rfl]
      exact ⟨fun _ => keyErr.mp h, fun _ => rfl⟩
    · rw [show ((if (some v).isNone = true then 404 else 200 : Nat)) = 200 from rfl]
      constructor
      · intro hc
        exact absurd hc (by decide)
      · intro hr
        have h0 := keyErr.mpr hr
        rw [h] at h0
        cases h0

/-! ## Observability (`observability.ts`): env parsing, stat extraction,
reference classification -/

/-- Decimal digit run to `Nat`. -/
def digitsToNat (ds : List Char) : Nat :=
  ds.foldl (fun acc c => acc * 10 + (c.toNat - 48)) 0

/-- JS `String.trim()` as a character-list computation. -/
def jsTrim (s : String) : String :=
  ⟨(((s.data.dropWhile Char.isWhitespace).reverse.dropWhile Char.isWhitespace).reverse)⟩

/-- JS `Number(string)` (ToNumber) on the shapes that occur here: the
empty / all-whitespace string is `0`; an optional sign, an integer part
and an optional fractional part parse as the exact rational; anything
else is `NaN` (`none`).  (Hex and exponent literals do not occur in the
modelled environment values.) -/
def jsNumberOfString (s : String) : Option Rat :=
  let cs := (jsTrim s).data
  if cs.isEmpty then some 0
  else
    let signAndRest : Int × List Char :=
      match cs with
      | '-' :: r => (-1, r)
      | '+' :: r => (1, r)
      | _ => (1, cs)
    let rest := signAndRest.2
    let intPart := rest.takeWhile Char.isDigit
    let afterInt := rest.dropWhile Char.isDigit
    match afterInt with
    | [] =>
      if intPart.isEmpty then none
      else some ((signAndRest.1 * (digitsToNat intPart : Int) : Int) : Rat)
    | '.' :: fracRest =>
      let fracPart := fracRest.takeWhile Char.isDigit
      let afterFrac := fracRest.dropWhile Char.isDigit
      if afterFrac.isEmpty && !(intPart.isEmpty && fracPart.isEmpty) then
        some (((signAndRest.1 : Rat)) * (((digitsToNat intPart : Nat) : Rat) +
          ((digitsToNat fracPart : Nat) : Rat) / ((10 : Rat) ^ fracPart.length)))
      else none
    | _ => none

/-- `parseNumberEnv(name, fallback)`:
`Number(process.env[name] || '')`, then the fallback unless the value is
finite and non-negative.  An unset variable becomes the empty string,
whose ToNumber is `0` — which is finite and non-negative, so the fallback
is NOT applied to unset variables. -/
def parseNumberEnv (env : String → Option String) (name : String) (fallback : Rat) : Rat :=
  match jsNumberOfString ((env name).getD "") with
  | some v => if 0 ≤ v then v else fallback
  | none => fallback

mutual

/-- `extractNumericStat(value)`: finite numbers as themselves, numeric
non-blank strings via ToNumber, `{value}` wrappers recursively. -/
def extractNumericStat : JsVal → Option Rat
  | .num q => some q
  | .str s => if jsTrim s ≠ "" then jsNumberOfString s else none
  | .obj fields => extractNumericField fields
  | _ => none

/-- The `'value' in object` read followed by the recursive call. -/
def extractNumericField : List (String × JsVal) → Option Rat
  | [] => none
  | (k, v) :: rest => if k = "value" then extractNumericStat v else extractNumericField rest

end

mutual

/-- `extractTimestampStat(value)`: non-blank strings as themselves,
`{value}` wrappers recursively (`Date` instances do not occur in parsed
JSON). -/
def extractTimestampStat : JsVal → Option String
  | .str s => if jsTrim s ≠ "" then some s else none
  | .obj fields => extractTimestampField fields
  | _ => none

def extractTimestampField : List (String × JsVal) → Option String
  | [] => none
  | (k, v) :: rest => if k = "value" then extractTimestampStat v else extractTimestampField rest

end

def extractNumericStatO (v : Option JsVal) : Option Rat :=
  v.bind extractNumericStat

def extractTimestampStatO (v : Option JsVal) : Option String :=
  v.bind extractTimestampStat

/-- `a ?? b` on already-computed optional results. -/
def optOr {α : Type} (a b : Option α) : Option α :=
  match a with
  | some x => some x
  | none => b

/-- `extractLegacyCreatedAt(value)`: the "seconds ago" interpretation of
`created_at`, guarded to `(0, 50·365·24·3600)`; `isoOf` stands for
`new Date(ms).toISOString()` and `now` for `Date.now()`. -/
def extractLegacyCreatedAt (isoOf : Rat → String) (now : Rat) (value : Option JsVal) :
    Option String :=
  match value with
  | none => none
  | some v =>
    match extractNumericStat v with
    | none => none
    | some parsed =>
      if 0 < parsed ∧ parsed < 50 * 365 * 24 * 60 * 60 then
        some (isoOf (now - parsed * 1000))
      else none

/-! ### Reference classifier (`referenceData.ts`) -/

def toLowerStr (s : String) : String := ⟨s.data.map Char.toLower⟩

def listStartsWith : List Char → List Char → Bool
  | [], _ => true
  | _ :: _, [] => false
  | n :: ns, h :: hs => n == h && listStartsWith ns hs

def listInfix (needle : List Char) : List Char → Bool
  | [] => needle.isEmpty
  | c :: rest => listStartsWith needle (c :: rest) || listInfix needle rest

/-- `needle` occurs as a substring of `hay` (JS `String.includes`). -/
def substrB (needle hay : String) : Bool := listInfix needle.data hay.data

/-- `normalize(value)` = `String(value || '').trim().toLowerCase()` for a
string-or-absent input. -/
def normalizeStr (v : Option String) : String :=
  match v with
  | none => ""
  | some s => toLowerStr (jsTrim s)

/-- `normalize` on an `unknown` meta value: JS `String(value || '')`
renders every falsy value (`undefined`, `null`, `false`, `0`, `''`) as
the empty string; strings are trimmed and lowercased; `true` renders
`"true"`; whole numbers render in decimal.  (Fractional, array, and
object renderings are collapsed to `""`: the two flag fields this is
applied to never carry those shapes.) -/
def normalizeJs (v : Option JsVal) : String :=
  match v with
  | none => ""
  | some .null => ""
  | some (.bool b) => if b then "true" else ""
  | some (.str s) => toLowerStr (jsTrim s)
  | some (.num q) => if q = 0 then "" else if q.den = 1 then toLowerStr (toString q.num) else ""
  | some (.arr _) => ""
  | some (.obj _) => ""

def HARDCODED_REFERENCE_TABLE_NAMES : List String :=
  ["addresstype", "contacttype", "countryregion", "creditcard", "currency",
   "currencyrate", "phonenumbertype", "salesreason", "salesterritory",
   "shipmethod", "specialoffer", "stateprovince", "unitmeasure",
   "productcategory", "productmodel", "productsubcategory"]

def REFERENCE_TAGS : List String :=
  ["ref", "reference", "lookup", "static", "dimension"]

def KEY_VALUE_COLUMN_PAIRS : List (String × String) :=
  [("id", "name"), ("id", "description"), ("code", "name"),
   ("code", "description"), ("key", "value"), ("type", "description"),
   ("status", "description")]

/-- The slice of `ReferenceDataInput` the classifier reads. -/
structure RefInput where
  unique_id : Option String := none
  name : Option String := none
  resource_type : Option String := none
  tags : Option (List String) := none
  meta : List (String × JsVal) := []
  materialized : Option String := none
  columns : List String := []

structure RefClass where
  isReferenceData : Bool
  reason : String

def hasKeyValueShape (columnNames : List String) : Bool :=
  KEY_VALUE_COLUMN_PAIRS.any (fun p => columnNames.contains p.1 && columnNames.contains p.2)

/-- `classifyReferenceData(input)`: decision list, first match wins. -/
def classifyReferenceData (input : RefInput) : RefClass :=
  let uniqueId := normalizeStr input.unique_id
  let name := normalizeStr input.name
  let resourceType := normalizeStr input.resource_type
  let materialized := normalizeStr input.materialized
  let tags := ((input.tags.getD []).map (fun t => normalizeStr (some t))).filter (· ≠ "")
  let dataClass := normalizeJs (lookupA input.meta "data_class")
  let refFlag := lookupA input.meta "reference_table"
  let columns := (input.columns.map (fun c => normalizeStr (some c))).filter (· ≠ "")
  let refFlagIsTrue : Bool :=
    match refFlag with
    | some (.bool true) => true
    | _ => false
  if refFlagIsTrue || normalizeJs refFlag = "true" then
    ⟨true, "meta.reference_table"⟩
  else if dataClass = "reference" then
    ⟨true, "meta.data_class=reference"⟩
  else if tags.any (fun t => REFERENCE_TAGS.contains t) then
    ⟨true, "tag"⟩
  else if resourceType = "seed" ∨ materialized = "seed" then
    ⟨true, "seed"⟩
  else if HARDCODED_REFERENCE_TABLE_NAMES.contains name then
    ⟨true, "hardcoded_table_name"⟩
  else if name ≠ "" ∧ uniqueId.endsWith ("." ++ name) = true ∧
      HARDCODED_REFERENCE_TABLE_NAMES.contains name = true then
    ⟨true, "hardcoded_unique_id_suffix"⟩
  else if substrB "lookup" name || substrB "reference" name ||
      substrB "_type" name || substrB "_reason" name then
    ⟨true, "name_pattern"⟩
  else if hasKeyValueShape columns then
    ⟨true, "key_value_columns"⟩
  else
    ⟨false, "not_reference"⟩

/-- `classifyReferenceData(currentNode || {})`: the observability module
passes the raw manifest node (or the empty object). -/
def refInputOfNode (n : Option NodeM) : RefInput :=
  match n with
  | none => {}
  | some node =>
    { unique_id := some node.unique_id
      name := some node.name
      resource_type := some node.resource_type
      tags := some node.tags
      meta := node.meta
      materialized := node.materialized
      columns := node.columns.map Prod.fst }

/-! ### Broad checks (`computeBroadChecks`) -/

structure CatColM where
  type : Option String := none

structure CatNodeM where
  columns : List (String × CatColM) := []
  stats : List (String × JsVal) := []
  metaFields : List (String × JsVal) := []

structure CatalogM where
  metadata : Option ManifestMetaM := none
  nodes : List (String × CatNodeM) := []
  sources : List (String × CatNodeM) := []

/-- The first truthy string of the chain, else `''`
(JS `String(a || b || '')`). -/
def firstTruthyStr : List (Option String) → String
  | [] => ""
  | o :: rest =>
    match o with
    | some s => if s = "" then firstTruthyStr rest else s
    | none => firstTruthyStr rest

/-- `getColumnTypeMap(manifestNode, catalogNode)`: manifest columns first
(catalog type preferred), then catalog-only columns (also filling columns
whose recorded type is the falsy `''`). -/
def getColumnTypeMap (mn : Option NodeM) (cn : Option CatNodeM) :
    List (String × String) :=
  let manifestColumns := (mn.map (·.columns)).getD []
  let catalogColumns := (cn.map (·.columns)).getD []
  let step1 := manifestColumns.foldl
    (fun acc p =>
      let manifestType := p.2
      let catalogType := (lookupA catalogColumns p.1).bind (·.type)
      updateA acc p.1 (firstTruthyStr [catalogType, manifestType]))
    []
  catalogColumns.foldl
    (fun acc p =>
      if (lookupA acc p.1).getD "" = "" then
        updateA acc p.1 (firstTruthyStr [p.2.type])
      else acc)
    step1

inductive CheckStatus where
  | pass | fail | unknown
  deriving DecidableEq, Repr

def CheckStatus.toStr : CheckStatus → String
  | .pass => "pass"
  | .fail => "fail"
  | .unknown => "unknown"

structure SchemaCheck where
  status : CheckStatus
  addedColumns : List String
  removedColumns : List String
  typeChanges : List (String × String × String)

structure VolumeCheck where
  status : CheckStatus
  currentRowCount : Option Rat
  previousRowCount : Option Rat
  deviationPct : Option Rat
  thresholdPct : Rat

structure FreshnessCheck where
  status : CheckStatus
  lastUpdated : Option String
  lagMinutes : Option Int
  thresholdMinutes : Rat
  isReferenceLike : Bool
  referenceReason : String
  freshnessSource : String

structure BroadChecks where
  schema : SchemaCheck
  volume : VolumeCheck
  freshness : FreshnessCheck
  failCount : Nat
  styleKey : String

/-- `buildStyleKey`: join the failing check names with `+`, `'none'` when
nothing failed. -/
def buildStyleKey (schema volume freshness : CheckStatus) : String :=
  let failed :=
    (if schema = .fail then ["schema"] else []) ++
    (if volume = .fail then ["volume"] else []) ++
    (if freshness = .fail then ["freshness"] else [])
  if failed.isEmpty then "none" else String.intercalate "+" failed

structure SourceFreshnessRec where
  max_loaded_at : Option String := none
  snapshotted_at : Option String := none

/-- The typed comparison slots `computeBroadChecks` consumes (the route
hands it the resolver's output; `source` is the provenance tag). -/
structure CompareArtifactT where
  manifest : Option ManifestM := none
  catalog : Option CatalogM := none
  source : String := ""

structure CompareArtifactsT where
  current : CompareArtifactT
  previous : CompareArtifactT

/-- `Math.round` (half away from zero is JS half-up; arguments here are
non-negative after the `max(0, …)`, and the model rounds half up). -/
def jsRound (q : Rat) : Int := (q + 1 / 2).floor

/-- `computeBroadChecks(nodeId, artifacts)`.  The ambient effects are
explicit parameters: `env` is `process.env`, `sfMap` the parsed
`sources.json` freshness map (`loadSourceFreshness()`), `dateParse` is
`Date.parse` (`none` = `NaN`), `isoOf` is `new Date(ms).toISOString()`,
and `now` is `Date.now()` in milliseconds. -/
def computeBroadChecks (env : String → Option String)
    (sfMap : Option (List (String × SourceFreshnessRec)))
    (dateParse : String → Option Rat) (isoOf : Rat → String) (now : Rat)
    (nodeId : String) (artifacts : CompareArtifactsT) : BroadChecks :=
  let currentManifest := artifacts.current.manifest
  let currentCatalog := artifacts.current.catalog
  let previousManifest := artifacts.previous.manifest
  let previousCatalog := artifacts.previous.catalog
  let currentNode := optOr (currentManifest.bind (fun m => lookupA m.nodes nodeId))
    (currentManifest.bind (fun m => lookupA m.sources nodeId))
  let previousNode := optOr (previousManifest.bind (fun m => lookupA m.nodes nodeId))
    (previousManifest.bind (fun m => lookupA m.sources nodeId))
  let currentCatalogNode := optOr (currentCatalog.bind (fun c => lookupA c.nodes nodeId))
    (currentCatalog.bind (fun c => lookupA c.sources nodeId))
  let previousCatalogNode := optOr (previousCatalog.bind (fun c => lookupA c.nodes nodeId))
    (previousCatalog.bind (fun c => lookupA c.sources nodeId))
  -- schema check
  let currentColumnTypes := getColumnTypeMap currentNode currentCatalogNode
  let previousColumnTypes := getColumnTypeMap previousNode previousCatalogNode
  let currentColumns := currentColumnTypes.map Prod.fst
  let previousColumns := previousColumnTypes.map Prod.fst
  let addedColumns := currentColumns.filter (fun c => !(previousColumns.contains c))
  let removedColumns := previousColumns.filter (fun c => !(currentColumns.contains c))
  let typeChanges := (currentColumns.filter (fun c =>
      ((lookupA previousColumnTypes c).getD "" != "") &&
        ((lookupA previousColumnTypes c).getD "" != (lookupA currentColumnTypes c).getD ""))).map
    (fun c => (c, (lookupA previousColumnTypes c).getD "", (lookupA currentColumnTypes c).getD ""))
  let schemaStatus : CheckStatus :=
    if previousColumns.length = 0 then .unknown
    else if addedColumns.length > 0 ∨ removedColumns.length > 0 ∨ typeChanges.length > 0
    then .fail else .pass
  -- volume check
  let currentRowCount := optOr
    (extractNumericStatO (currentCatalogNode.bind (fun c => lookupA c.stats "num_rows")))
    (extractNumericStatO (currentCatalogNode.bind (fun c => lookupA c.stats "row_count")))
  let previousRowCount := optOr
    (extractNumericStatO (previousCatalogNode.bind (fun c => lookupA c.stats "num_rows")))
    (extractNumericStatO (previousCatalogNode.bind (fun c => lookupA c.stats "row_count")))
  let volumeThresholdPct := parseNumberEnv env "OBS_VOLUME_THRESHOLD_PCT" 25
  let deviationPct : Option Rat :=
    match currentRowCount, previousRowCount with
    | some cur, some prev => if prev > 0 then some ((cur - prev) / prev * 100) else none
    | _, _ => none
  let volumeStatus : CheckStatus :=
    match deviationPct with
    | none => .unknown
    | some d => if |d| > volumeThresholdPct then .fail else .pass
  -- freshness check
  let sourceFreshness := sfMap.bind (fun m => lookupA m nodeId)
  let meta := (currentNode.map (·.meta)).getD []
  let referenceClassification := classifyReferenceData (refInputOfNode currentNode)
  let tsOfOptStr : Option String → Option String := fun o =>
    extractTimestampStatO (o.map .str)
  let fromSourcesArtifact := optOr (tsOfOptStr (sourceFreshness.bind (·.max_loaded_at)))
    (tsOfOptStr (sourceFreshness.bind (·.snapshotted_at)))
  let lastUpdatedAndSource : Option String × String :=
    match fromSourcesArtifact with
    | some t => (some t, "sources.json")
    | none =>
      let fromCatalog := optOr (optOr (optOr
        (extractTimestampStatO (currentCatalogNode.bind (fun c => lookupA c.stats "max_loaded_at")))
        (extractTimestampStatO (currentCatalogNode.bind (fun c => lookupA c.stats "last_modified"))))
        (extractTimestampStatO (currentCatalogNode.bind (fun c => lookupA c.stats "updated_at"))))
        (extractTimestampStatO (currentCatalogNode.bind (fun c => lookupA c.metaFields "updated_at")))
      match fromCatalog with
      | some t => (some t, "catalog.stats")
      | none =>
        let fromMeta := optOr (optOr (optOr
          (extractTimestampStatO (lookupA meta "last_updated_at"))
          (extractTimestampStatO (lookupA meta "max_loaded_at")))
          (extractTimestampStatO (lookupA meta "modified_at")))
          (extractTimestampStatO (lookupA meta "updated_at"))
        match fromMeta with
        | some t => (some t, "manifest.meta")
        | none =>
          match extractLegacyCreatedAt isoOf now (currentNode.bind (·.created_at)) with
          | some t => (some t, "manifest.created_at_legacy")
          | none => (none, "unknown")
  let lastUpdated := lastUpdatedAndSource.1
  let freshnessSource := lastUpdatedAndSource.2
  let isReferenceLike := referenceClassification.isReferenceData
  let freshnessThresholdMinutes :=
    if isReferenceLike then parseNumberEnv env "OBS_REFERENCE_FRESHNESS_THRESHOLD_MINUTES" (7 * 24 * 60)
    else parseNumberEnv env "OBS_FRESHNESS_THRESHOLD_MINUTES" 180
  let parsedLastUpdated : Option Rat :=
    match lastUpdated with
    | some s => dateParse s
    | none => none
  let lagMinutes : Option Int :=
    parsedLastUpdated.map (fun t => max 0 (jsRound ((now - t) / 60000)))
  let freshnessStatus : CheckStatus :=
    match lagMinutes with
    | none => .unknown
    | some lag => if (lag : Rat) > freshnessThresholdMinutes then .fail else .pass
  let styleKey := buildStyleKey schemaStatus volumeStatus freshnessStatus
  let failCount :=
    ([schemaStatus, volumeStatus, freshnessStatus].filter (fun s => s = .fail)).length
  { schema :=
      { status := schemaStatus
        addedColumns := addedColumns
        removedColumns := removedColumns
        typeChanges := typeChanges }
    volume :=
      { status := volumeStatus
        currentRowCount := currentRowCount
        previousRowCount := previousRowCount
        deviationPct := deviationPct
        thresholdPct := volumeThresholdPct }
    freshness :=
      { status := freshnessStatus
        lastUpdated := lastUpdated
        lagMinutes := lagMinutes
        thresholdMinutes := freshnessThresholdMinutes
        isReferenceLike := isReferenceLike
        referenceReason := referenceClassification.reason
        freshnessSource := freshnessSource }
    failCount := failCount
    styleKey := styleKey }

/-- The C3 failing input: every `OBS_*` variable unset, a non-reference
node id, and catalog row counts 100 → 101 (a 1% change). -/
def bugChecks : BroadChecks :=
  computeBroadChecks (fun _ => none) none (fun _ => none) (fun _ => "") 0 "n"
    ⟨{ catalog := some { nodes := [("n", { stats := [("num_rows", .num 101)] })] } },
     { catalog := some { nodes := [("n", { stats := [("num_rows", .num 100)] })] } }⟩

/-- C3: when the environment variables are UNSET, `parseNumberEnv`
evaluates `Number(process.env[name] || '')` = `Number('')` = `0`, which is
finite and non-negative, so the documented defaults 25 / 180 / 10080 are
never applied: every threshold becomes 0, is reported as 0, and a 1%
volume deviation is judged `fail` (the spec's default 25 would judge it
`pass`).  Set-but-non-numeric and negative values do fall back as
claimed. -/
theorem env_unset_threshold_bug :
    parseNumberEnv (fun _ => none) "OBS_VOLUME_THRESHOLD_PCT" 25 = 0
    ∧ parseNumberEnv (fun _ => none) "OBS_FRESHNESS_THRESHOLD_MINUTES" 180 = 0
    ∧ parseNumberEnv (fun _ => none) "OBS_REFERENCE_FRESHNESS_THRESHOLD_MINUTES" 10080 = 0
    ∧ bugChecks.volume.thresholdPct = 0
    ∧ bugChecks.volume.deviationPct = some 1
    ∧ bugChecks.volume.status = .fail
    ∧ bugChecks.freshness.thresholdMinutes = 0
    ∧ parseNumberEnv (fun _ => some "abc") "OBS_VOLUME_THRESHOLD_PCT" 25 = 25
    ∧ parseNumberEnv (fun _ => some "-5") "OBS_VOLUME_THRESHOLD_PCT" 25 = 25 := by
  refine ⟨rfl, rfl, rfl, rfl, ?_, ?_, rfl, by decide, by decide⟩
  · norm_num [bugChecks, computeBroadChecks, extractNumericStatO, extractNumericStat,
      extractNumericField, optOr, lookupA]
  · norm_num [bugChecks, computeBroadChecks, extractNumericStatO, extractNumericStat,
      extractNumericField, optOr, lookupA, parseNumberEnv, jsNumberOfString, jsTrim]

/-! ## `/api/errors/[id]` test assembly (route.ts lines 171-290)

`description` strings (prose built with `toFixed` renderings) carry no
information the claims touch and are omitted from the record. -/

structure TestResult where
  unique_id : String
  testName : String
  testType : String
  nodeId : String
  columnName : Option String
  status : String
  severity : String
  deriving DecidableEq, Repr

/-- `classifyTest(testNode, testName)`. -/
def classifyTest (testNode : NodeM) (testName : String) : String :=
  let metaBranch : Option String :=
    match testNode.test_metadata with
    | some tm =>
      if tm.tmNamespace = some "dbt" ∧ (tm.tmName.getD "") ≠ "" then
        let metaName := toLowerStr (tm.tmName.getD "")
        if metaName = "dbt_freshness" ∨ metaName = "freshness" then some "freshness"
        else if metaName = "unique" ∨ metaName = "not_null" ∨ metaName = "relationships" ∨
            metaName = "accepted_values" then some "quality"
        else some "other"
      else none
    | none => none
  match metaBranch with
  | some t => t
  | none =>
    let lower := toLowerStr testName
    if substrB "freshness" lower || substrB "dbt_freshness" lower then "freshness"
    else if substrB "row_count" lower || substrB "volume" lower || substrB "not_empty" lower
    then "volume"
    else if substrB "not_null" lower || substrB "unique" lower ||
        substrB "accepted_values" lower || substrB "relationships" lower ||
        substrB "type_check" lower then "quality"
    else "other"

/-- `testMetadata.name || testNode.name` (the falsy empty string falls
through). -/
def jsOrDefault (a : Option String) (b : String) : String :=
  let s := a.getD ""
  if s = "" then b else s

/-- The manifest-derived test list: every node of the current manifest's
`nodes` map with `resource_type === 'test'` whose `depends_on.nodes`
contains the id or whose `file_key_name` equals it; status is always
`'unknown'`, severity defaults to `'warning'`. -/
def manifestTestsFor (currentManifest : Option ManifestM) (nodeId : String) :
    List TestResult :=
  ((currentManifest.map (·.nodes)).getD []).filterMap fun p =>
    let testNode := p.2
    if testNode.resource_type ≠ "test" then none
    else
      let appliesHere :=
        testNode.dependsOnNodes.contains nodeId || testNode.file_key_name == some nodeId
      if !appliesHere then none
      else
        let testName := jsOrDefault (testNode.test_metadata.bind (·.tmName)) testNode.name
        some
          { unique_id := p.1
            testName := testName
            testType := classifyTest testNode testName
            nodeId := nodeId
            columnName := testNode.test_metadata.bind (·.kwargsColumnName)
            status := "unknown"
            severity := jsOrDefault testNode.severity "warning" }

/-- The three synthetic broad-check tests pushed after the manifest
tests. -/
def syntheticTests (nodeId : String) (checks : BroadChecks) : List TestResult :=
  [ { unique_id := "observability.schema_drift." ++ nodeId
      testName := "schema_drift"
      testType := "quality"
      nodeId := nodeId
      columnName := none
      status := checks.schema.status.toStr
      severity := if checks.schema.status = .fail then "error" else "warning" },
    { unique_id := "observability.volume." ++ nodeId
      testName := "volume_change"
      testType := "volume"
      nodeId := nodeId
      columnName := none
      status := checks.volume.status.toStr
      severity := if checks.volume.status = .fail then "error" else "warning" },
    { unique_id := "observability.freshness." ++ nodeId
      testName := "freshness_lag"
      testType := "freshness"
      nodeId := nodeId
      columnName := none
      status := checks.freshness.status.toStr
      severity := if checks.freshness.status = .fail then "error" else "warning" } ]

structure ErrorsResponse where
  nodeId : String
  nodeName : String
  totalTests : Nat
  failingTests : Nat
  tests : List TestResult
  deriving Repr

/-- The `testType` / `statusFilter` filters applied after assembly (a
falsy — absent or empty — filter is skipped). -/
def applyTestFilters (tests : List TestResult)
    (testTypeFilter statusFilter : Option String) : List TestResult :=
  let filtered1 :=
    match testTypeFilter.getD "" with
    | "" => tests
    | f => tests.filter (fun t => t.testType = f)
  match statusFilter.getD "" with
  | "" => filtered1
  | f => filtered1.filter (fun t => t.status = f)

/-- The errors-route response assembly: build the full list, count
`totalTests` and `failingTests` on it, then replace `tests` by the
filtered list. -/
def errorsResponseFor (currentManifest : Option ManifestM) (checks : BroadChecks)
    (nodeId nodeName : String) (testTypeFilter statusFilter : Option String) :
    ErrorsResponse :=
  let testResults := manifestTestsFor currentManifest nodeId ++ syntheticTests nodeId checks
  let errorMetadata : ErrorsResponse :=
    { nodeId := nodeId
      nodeName := nodeName
      totalTests := testResults.length
      failingTests := (testResults.filter (fun t => t.status = "fail")).length
      tests := testResults }
  let filtered := applyTestFilters errorMetadata.tests testTypeFilter statusFilter
  { errorMetadata with tests := filtered }

/-- Every manifest-derived test is reported with status `'unknown'`. -/
theorem manifestTestsFor_status_unknown (m : Option ManifestM) (nodeId : String) :
    ∀ t ∈ manifestTestsFor m nodeId, t.status = "unknown" := by
  intro t ht
  rw [manifestTestsFor] at ht
  obtain ⟨p, _, hp⟩ := List.mem_filterMap.mp ht
  dsimp only at hp
  split at hp
  · cases hp
  · split at hp
    · cases hp
    · cases hp
      rfl

/-- C9: `failingTests` equals the number of `fail`-status tests in the
full assembled list (manifest-derived tests plus the three synthetic
broad-check tests) before the `testType`/`statusFilter` filters are
applied, while the returned `tests` list is the filtered one; since every
manifest-derived test has status `'unknown'`, the count equals the number
of failing synthetic tests. -/
theorem errors_failing_count_before_filters (m : Option ManifestM)
    (checks : BroadChecks) (nodeId nodeName : String)
    (testTypeFilter statusFilter : Option String) :
    (errorsResponseFor m checks nodeId nodeName testTypeFilter statusFilter).failingTests =
      ((manifestTestsFor m nodeId ++ syntheticTests nodeId checks).filter
        (fun t => t.status = "fail")).length
    ∧ (errorsResponseFor m checks nodeId nodeName testTypeFilter statusFilter).totalTests =
      (manifestTestsFor m nodeId ++ syntheticTests nodeId checks).length
    ∧ (errorsResponseFor m checks nodeId nodeName testTypeFilter statusFilter).tests =
      applyTestFilters (manifestTestsFor m nodeId ++ syntheticTests nodeId checks)
        testTypeFilter statusFilter
    ∧ (errorsResponseFor m checks nodeId nodeName testTypeFilter statusFilter).failingTests =
      (((syntheticTests nodeId checks)).filter (fun t => t.status = "fail")).length := by
  refine ⟨rfl, rfl, rfl, ?_⟩
  show ((manifestTestsFor m nodeId ++ syntheticTests nodeId checks).filter
    (fun t => t.status = "fail")).length = _
  rw [List.filter_append]
  have hnil : (manifestTestsFor m nodeId).filter (fun t => t.status = "fail") = [] := by
    rw [List.filter_eq_nil_iff]
    intro t ht
    rw [manifestTestsFor_status_unknown m nodeId t ht]
    decide
  rw [hnil]
  rfl

/-! ## Paths, files, and the comparison resolver (`observability.ts`)

Paths are absolute segment lists (POSIX).  The file system visible to the
resolver maps a path to the parse result of the JSON file there; `none`
is a missing or unparseable file (`tryReadJson` collapses the two). -/

/-- Split a raw path string on `/` (empty segments are dropped later by
normalization). -/
def splitSlash (cs : List Char) : List (List Char) :=
  cs.foldr
    (fun c acc =>
      if c = '/' then [] :: acc
      else
        match acc with
        | [] => [[c]]
        | seg :: rest => (c :: seg) :: rest)
    [[]]

def pathSegsOf (raw : String) : List String :=
  (splitSlash raw.data).map (fun cs => ⟨cs⟩)

def rawIsAbsolute (raw : String) : Bool :=
  match raw.data with
  | '/' :: _ => true
  | _ => false

/-- `path.normalize` on segments: drop `.` and empty segments, `..` pops
(not past the root). -/
def normalizeSegs (segs : List String) : List String :=
  segs.foldl
    (fun acc s =>
      if s = "." ∨ s = "" then acc
      else if s = ".." then acc.dropLast
      else acc ++ [s])
    []

/-- `path.resolve(cwd, raw)` with `cwd` an absolute normalized segment
list: an absolute raw path ignores `cwd`. -/
def resolvePathStr (cwd : List String) (raw : String) : List String :=
  normalizeSegs ((if rawIsAbsolute raw then [] else cwd) ++ pathSegsOf raw)

def FileSys : Type := List (List String × JsVal)

def readFS : FileSys → List String → Option JsVal
  | [], _ => none
  | (p, v) :: rest, q => if p = q then some v else readFS rest q

/-- `tryReadJson(filePath)`: `null` when the file is absent or fails to
parse, the parsed value otherwise — no other condition guards the read. -/
def tryReadJson (fs : FileSys) (p : List String) : Option JsVal := readFS fs p

/-- JS truthiness of a possibly-absent parsed JSON value. -/
def jsTruthy : Option JsVal → Bool
  | none => false
  | some .null => false
  | some (.bool b) => b
  | some (.str s) => s != ""
  | some (.num q) => q != 0
  | some (.arr _) => true
  | some (.obj _) => true

/-- `String(v)` for the snapshot label value (the index generator writes
string labels; numeric and boolean renderings are included for
faithfulness of the common shapes). -/
def jsStrVal : Option JsVal → String
  | some (.str s) => s
  | some (.bool b) => if b then "true" else "false"
  | some (.num q) => if q.den = 1 then toString q.num else ""
  | _ => ""

structure CompareSlotJ where
  manifest : Option JsVal
  catalog : Option JsVal
  source : String

structure CompareArtifactsJ where
  current : CompareSlotJ
  previous : CompareSlotJ

/-- `resolveSnapshotDir` + `loadSnapshotArtifacts(label)`. -/
def loadSnapshotArtifacts (fs : FileSys) (cwd : List String) (label : String) :
    CompareSlotJ :=
  let dir := cwd ++ ["samples", "adventureworks-batches", label]
  { manifest := tryReadJson fs (dir ++ ["manifest.json"])
    catalog := tryReadJson fs (dir ++ ["catalog.json"])
    source := "snapshot:" ++ label }

/-- The `index.json` prelude of `latestHistoryArtifact`: the last entry of
the `snapshots` array, when its `label` is truthy. -/
def latestTruthyLabel (fs : FileSys) (cwd : List String) : Option String :=
  let index := tryReadJson fs (cwd ++ ["samples", "adventureworks-batches", "index.json"])
  let snapshots : List JsVal :=
    match index with
    | some (.obj fields) =>
      match lookupA fields "snapshots" with
      | some (.arr l) => l
      | _ => []
    | _ => []
  let latest : Option JsVal :=
    if snapshots.length > 0 then
      match snapshots.getLast? with
      | some (.obj fields) => lookupA fields "label"
      | _ => none
    else none
  if jsTruthy latest then some (jsStrVal latest) else none

/-- `latestHistoryArtifact()`: the snapshot named by the last entry of
`index.json`'s `snapshots` array; with no such entry, a `backup`-tagged
slot reading the two backup files. -/
def latestHistoryArtifact (fs : FileSys) (cwd : List String) : CompareSlotJ :=
  match latestTruthyLabel fs cwd with
  | none =>
    { manifest := tryReadJson fs (cwd ++ ["manifest_backup.json"])
      catalog := tryReadJson fs (cwd ++ ["catalog_backup.json"])
      source := "backup" }
  | some label => loadSnapshotArtifacts fs cwd label

structure CompareOptions where
  currentSnapshot : Option String := none
  previousSnapshot : Option String := none
  previousManifestPath : Option String := none
  previousCatalogPath : Option String := none

/-- `options.x?.trim()` followed by the JS truthiness tests in the
resolver: an absent or blank option is not provided. -/
def optTrim (o : Option String) : Option String :=
  match o with
  | none => none
  | some s => if jsTrim s = "" then none else some (jsTrim s)

/-- `resolveCompareArtifacts(currentManifest, currentCatalog, options)`.
Note the explicit-path branch: each provided path is resolved against the
working directory and read by `tryReadJson` directly — there is no
containment or `.json`-suffix check in this module (`resolveRepoPath` in
`comparison.ts` has one, but this resolver does not call it). -/
def resolveCompareArtifacts (fs : FileSys) (cwd : List String)
    (currentManifest : JsVal) (currentCatalog : Option JsVal)
    (options : CompareOptions) : CompareArtifactsJ :=
  let currentSnapshot := optTrim options.currentSnapshot
  let previousSnapshot := optTrim options.previousSnapshot
  let previousManifestPath := optTrim options.previousManifestPath
  let previousCatalogPath := optTrim options.previousCatalogPath
  let current : CompareSlotJ :=
    match currentSnapshot with
    | some label => loadSnapshotArtifacts fs cwd label
    | none =>
      { manifest := some currentManifest, catalog := currentCatalog, source := "current" }
  match previousSnapshot with
  | some label => ⟨current, loadSnapshotArtifacts fs cwd label⟩
  | none =>
    if previousManifestPath.isSome ∨ previousCatalogPath.isSome then
      ⟨current,
        { manifest := previousManifestPath.bind (fun p => tryReadJson fs (resolvePathStr cwd p))
          catalog := previousCatalogPath.bind (fun p => tryReadJson fs (resolvePathStr cwd p))
          source := "explicit-path" }⟩
    else
      let backupManifest := tryReadJson fs (cwd ++ ["manifest_backup.json"])
      let backupCatalog := tryReadJson fs (cwd ++ ["catalog_backup.json"])
      if jsTruthy backupManifest || jsTruthy backupCatalog then
        ⟨current, { manifest := backupManifest, catalog := backupCatalog, source := "backup" }⟩
      else
        ⟨current, latestHistoryArtifact fs cwd⟩

def segsPrefixOf : List String → List String → Bool
  | [], _ => true
  | _ :: _, [] => false
  | a :: as1, b :: bs => a == b && segsPrefixOf as1 bs

def strEndsWith (suffix s : String) : Bool :=
  listStartsWith suffix.data.reverse s.data.reverse

/-- The path rule the spec states (and that `resolveRepoPath` in
`comparison.ts` enforces): resolved against the working directory, kept
only when the resolved path stays inside it and ends in `.json`. -/
def specPathAllowed (cwd : List String) (raw : String) : Bool :=
  let resolved := resolvePathStr cwd raw
  segsPrefixOf cwd resolved &&
    (match resolved.getLast? with
     | some seg => strEndsWith ".json" seg
     | none => false)

/-- A file system whose only file lies outside the working directory
`home/repo`. -/
def outsideFS : FileSys := [(["home", "secret.txt"], .str "TOP-SECRET")]

/-- C4 counterexample: `previousManifestPath=../secret.txt` escapes the
working directory and has no `.json` suffix — the spec's rule rejects it —
yet `resolveCompareArtifacts` reads the file and returns its content in
the previous slot. -/
theorem path_escape_counterexample :
    specPathAllowed ["home", "repo"] "../secret.txt" = false
    ∧ (resolveCompareArtifacts outsideFS ["home", "repo"] .null none
        { previousManifestPath := some "../secret.txt" }).previous.manifest =
      some (.str "TOP-SECRET")
    ∧ (resolveCompareArtifacts outsideFS ["home", "repo"] .null none
        { previousManifestPath := some "../secret.txt" }).previous.source =
      "explicit-path" := by
  exact ⟨rfl, rfl, rfl⟩

/-- C4 (amended): each caller-supplied previous path is resolved against
the process working directory and read unconditionally — the resolver used
by the lineage and errors endpoints applies no working-directory
containment and no `.json`-suffix check, and returns the parsed content
of whatever the path resolves to. -/
theorem explicit_paths_read_unconditionally (fs : FileSys) (cwd : List String)
    (cm : JsVal) (cc : Option JsVal) (options : CompareOptions)
    (hns : optTrim options.previousSnapshot = none)
    (hprov : optTrim options.previousManifestPath ≠ none ∨
      optTrim options.previousCatalogPath ≠ none) :
    (resolveCompareArtifacts fs cwd cm cc options).previous.manifest =
      (optTrim options.previousManifestPath).bind
        (fun p => tryReadJson fs (resolvePathStr cwd p))
    ∧ (resolveCompareArtifacts fs cwd cm cc options).previous.catalog =
      (optTrim options.previousCatalogPath).bind
        (fun p => tryReadJson fs (resolvePathStr cwd p))
    ∧ (resolveCompareArtifacts fs cwd cm cc options).previous.source = "explicit-path" := by
  rw [resolveCompareArtifacts]
  rw [hns]
  have hcond : (optTrim options.previousManifestPath).isSome ∨
      (optTrim options.previousCatalogPath).isSome := by
    rcases hprov with h | h
    · exact Or.inl (Option.isSome_iff_ne_none.mpr h)
    · exact Or.inr (Option.isSome_iff_ne_none.mpr h)
  rw [if_pos hcond]
  exact ⟨rfl, rfl, rfl⟩

/-- Witness for `explicit_paths_read_unconditionally` at the concrete
escaping input. -/
theorem explicit_paths_read_witness :
    (resolveCompareArtifacts outsideFS ["home", "repo"] .null none
      { previousManifestPath := some "../secret.txt" }).previous.source = "explicit-path" :=
  (explicit_paths_read_unconditionally outsideFS ["home", "repo"] .null none
    { previousManifestPath := some "../secret.txt" } rfl
    (Or.inl (by decide))).2.2

/-- `v?.metadata?.generated_at` as a string. -/
def manifestGeneratedAt (v : Option JsVal) : Option String :=
  match v with
  | some (.obj fields) =>
    match lookupA fields "metadata" with
    | some (.obj mf) =>
      match lookupA mf "generated_at" with
      | some (.str s) => some s
      | _ => none
    | _ => none
  | _ => none

/-- Modelled from the spec: the previous-slot rule the claim states, for
requests without `previousSnapshot`.  What `src/` does not contain is any
listing of snapshot directories in this module (the code reads
`index.json` instead), so the available snapshot directories are the
explicit `snapshotLabels` argument; each candidate's `generated_at` is
read from its `manifest.json`.  Priority per the claim: the explicit
previous paths when either is provided (partial specification rejected —
`none`), each read only under the path rule; else the backup pair only
when both files exist; else the lexicographically-last snapshot whose
`generated_at` differs from the current bundle's; else an empty slot
whose source tag is `none`. -/
def specPreviousSlot (fs : FileSys) (cwd : List String)
    (snapshotLabels : List String) (currentGeneratedAt : String)
    (options : CompareOptions) : Option CompareSlotJ :=
  let pmp := optTrim options.previousManifestPath
  let pcp := optTrim options.previousCatalogPath
  if pmp.isSome ∨ pcp.isSome then
    if pmp.isSome ∧ pcp.isSome then
      some
        { manifest := pmp.bind (fun p =>
            if specPathAllowed cwd p then tryReadJson fs (resolvePathStr cwd p) else none)
          catalog := pcp.bind (fun p =>
            if specPathAllowed cwd p then tryReadJson fs (resolvePathStr cwd p) else none)
          source := "explicit-path" }
    else none
  else
    let bm := tryReadJson fs (cwd ++ ["manifest_backup.json"])
    let bc := tryReadJson fs (cwd ++ ["catalog_backup.json"])
    if bm.isSome ∧ bc.isSome then
      some { manifest := bm, catalog := bc, source := "backup" }
    else
      let sorted := List.insertionSort (fun a b : String => a ≤ b) snapshotLabels
      let candidate := sorted.reverse.find? (fun label =>
        !(manifestGeneratedAt (tryReadJson fs
          (cwd ++ ["samples", "adventureworks-batches", label, "manifest.json"])) ==
            some currentGeneratedAt))
      match candidate with
      | some label => some (loadSnapshotArtifacts fs cwd label)
      | none => some { manifest := none, catalog := none, source := "none" }

/-- A file system where only `catalog_backup.json` exists (no manifest
backup, no snapshots). -/
def backupOnlyFS : FileSys := [(["root", "catalog_backup.json"], .bool true)]

/-- C5 counterexample: with only `catalog_backup.json` present, the
claim's rule skips the backup pair (both files must exist) and, with no
snapshots, yields the empty slot tagged `none`; the code instead takes
the backup branch as soon as either backup parses, returning a
`backup`-tagged slot with the lone catalog. -/
theorem previous_slot_counterexample :
    specPreviousSlot backupOnlyFS ["root"] [] "g0" {} =
      some { manifest := none, catalog := none, source := "none" }
    ∧ (resolveCompareArtifacts backupOnlyFS ["root"] .null none {}).previous.source = "backup"
    ∧ (resolveCompareArtifacts backupOnlyFS ["root"] .null none {}).previous.catalog =
      some (.bool true)
    ∧ ("backup" : String) ≠ "none" := by
  exact ⟨rfl, rfl, rfl, by decide⟩

/-- C5 (amended): for requests without `previousSnapshot`, the previous
slot is determined in this order: the explicit-path slot when either path
is provided (each file read independently and unconditionally — a missing
one stays null, partial specification is not rejected); else the backup
slot as soon as at least one of `manifest_backup.json` /
`catalog_backup.json` parses truthy (both need not exist); else the
snapshot named by the last entry of `index.json`'s `snapshots` list,
regardless of `generated_at` or lexicographic order; else a slot with
null artifacts whose source tag is `backup`, not `none`. -/
theorem resolve_previous_slot_priority (fs : FileSys) (cwd : List String)
    (cm : JsVal) (cc : Option JsVal) (options : CompareOptions)
    (hns : optTrim options.previousSnapshot = none) :
    ((optTrim options.previousManifestPath).isSome ∨
        (optTrim options.previousCatalogPath).isSome →
      (resolveCompareArtifacts fs cwd cm cc options).previous =
        { manifest := (optTrim options.previousManifestPath).bind
            (fun p => tryReadJson fs (resolvePathStr cwd p))
          catalog := (optTrim options.previousCatalogPath).bind
            (fun p => tryReadJson fs (resolvePathStr cwd p))
          source := "explicit-path" })
    ∧ (optTrim options.previousManifestPath = none →
       optTrim options.previousCatalogPath = none →
       (jsTruthy (tryReadJson fs (cwd ++ ["manifest_backup.json"])) ||
         jsTruthy (tryReadJson fs (cwd ++ ["catalog_backup.json"]))) = true →
      (resolveCompareArtifacts fs cwd cm cc options).previous =
        { manifest := tryReadJson fs (cwd ++ ["manifest_backup.json"])
          catalog := tryReadJson fs (cwd ++ ["catalog_backup.json"])
          source := "backup" })
    ∧ (optTrim options.previousManifestPath = none →
       optTrim options.previousCatalogPath = none →
       (jsTruthy (tryReadJson fs (cwd ++ ["manifest_backup.json"])) ||
         jsTruthy (tryReadJson fs (cwd ++ ["catalog_backup.json"]))) = false →
      (resolveCompareArtifacts fs cwd cm cc options).previous =
        latestHistoryArtifact fs cwd)
    ∧ (∀ label, latestTruthyLabel fs cwd = some label →
        latestHistoryArtifact fs cwd = loadSnapshotArtifacts fs cwd label)
    ∧ (latestTruthyLabel fs cwd = none →
        latestHistoryArtifact fs cwd =
          { manifest := tryReadJson fs (cwd ++ ["manifest_backup.json"])
            catalog := tryReadJson fs (cwd ++ ["catalog_backup.json"])
            source := "backup" }) := by
  refine ⟨?_, ?_, ?_, ?_, ?_⟩
  · intro hprov
    rw [resolveCompareArtifacts, hns]
    rw [if_pos hprov]
  · intro h1 h2 htruthy
    rw [resolveCompareArtifacts, hns]
    rw [if_neg (by simp [h1, h2])]
    rw [if_pos htruthy]
  · intro h1 h2 hfalsy
    rw [resolveCompareArtifacts, hns]
    rw [if_neg (by simp [h1, h2])]
    rw [if_neg (by simp [hfalsy])]
  · intro label hlab
    simp only [latestHistoryArtifact, hlab]
  · intro hlab
    simp only [latestHistoryArtifact, hlab]

/-- Witness for `resolve_previous_slot_priority`: the backup branch fires
at `backupOnlyFS` although only the catalog backup exists. -/
theorem resolve_previous_slot_priority_witness :
    (resolveCompareArtifacts backupOnlyFS ["root"] .null none {}).previous =
      { manifest := tryReadJson backupOnlyFS (["root"] ++ ["manifest_backup.json"])
        catalog := tryReadJson backupOnlyFS (["root"] ++ ["catalog_backup.json"])
        source := "backup" } :=
  (resolve_previous_slot_priority backupOnlyFS ["root"] .null none {} rfl).2.1
    rfl rfl (by decide)

end SDD
